import Mathlib

/-!
Verification development for the ext2-lite filesystem
(`filesystems/{balloc,ialloc,inode,namei,dir,super}.c`).

The C sources are shallowly embedded: machine integers become `Nat`
(with explicit `% 2 ^ 16` where the code stores into a 16-bit field),
buffers become lists, fallible paths return `Except Errno` or carry an
explicit rejected/accepted marker, and the in-kernel collaborators
(buffer cache, page cache) are modelled as always-successful reads
unless a claim is specifically about a failing read, in which case the
failure possibility is part of the state.

Constants and helpers that live in the project's header `ext2.h`
(which is not among the sources) are modelled from the spec and are
marked as such in their doc comments.
-/

namespace Ext2Lite

/-- Error codes returned by the sources (a C return of `-EXXX` is
modelled as `Except.error .exxx`). -/
inductive Errno where
  | eio
  | einval
  | enospc
  | eexist
  | enoent
  | enotempty
  | enametoolong
deriving DecidableEq, Repr

/-- Wrap-around store into a 16-bit on-disk field (`__le16`), as
performed by `cpu_to_le16`/`le16_add_cpu` on the group descriptor
counters. -/
def u16wrap (x : Int) : Nat := (x % 65536).toNat

/-- `percpu_counter_read_positive` truncated through the `__u16`
local variable `free_blocks` of `ext2_new_blocks` (balloc.c:355):
the positive counter value is stored into a 16-bit variable, so only
its low 16 bits survive. -/
def read_positive_u16 (c : Int) : Nat := (max c 0).toNat % 65536

/-! ## Block allocator (balloc.c) -/

/-- The fields of `struct ext2_group_desc` used by balloc.c, in host
byte order (the code always goes through `le32_to_cpu`/`le16_to_cpu`
when reading them). -/
structure GroupDesc where
  bgBlockBitmap : Nat
  bgInodeBitmap : Nat
  bgInodeTable : Nat
  bgFreeBlocksCount : Nat
deriving DecidableEq, Repr

/-- A block bitmap buffer: bit `k` of the bitmap block of group `g`
says whether block `first_block_of_group g + k` is allocated.
Bits beyond the list are read as set (the model never allocates or
frees outside the modelled buffer). -/
abbrev Bitmap := List Bool

/-- The state touched by the block allocator: the superblock fields it
reads, one `(descriptor, block bitmap)` pair per group, and the global
free-blocks percpu counter. -/
structure BallocState where
  blocksCount : Nat
  firstDataBlock : Nat
  blocksPerGroup : Nat
  itbPerGroup : Nat
  sbBlock : Nat
  blockSize : Nat
  groups : List (GroupDesc × Bitmap)
  freeBlocksCounter : Int
deriving DecidableEq, Repr

/-- Number of block groups (`sbi->s_groups_count`); in the embedding it
is the length of the per-group list. -/
def groupsCount (s : BallocState) : Nat := s.groups.length

/-- Modelled from the spec: `ext2_group_first_block_no` from the
missing header `ext2.h`; per spec section 3 each group occupies a
contiguous range starting at `first_data_block + g * blocks_per_group`. -/
def ext2_group_first_block_no (s : BallocState) (g : Nat) : Nat :=
  s.firstDataBlock + g * s.blocksPerGroup

/-- Modelled from the spec: `ext2_group_last_block_no` from the missing
header `ext2.h`; the last group is truncated at `blocks_count - 1`. -/
def ext2_group_last_block_no (s : BallocState) (g : Nat) : Nat :=
  if g = groupsCount s - 1 then s.blocksCount - 1
  else ext2_group_first_block_no s g + s.blocksPerGroup - 1

/-- Number of blocks covered by group `g`'s bitmap
(`group_last_block - group_first_block + 1` in `ext2_allocate_in_bg`). -/
def groupNBlocks (s : BallocState) (g : Nat) : Nat :=
  ext2_group_last_block_no s g - ext2_group_first_block_no s g + 1

/-- `test_bit_le` on a bitmap buffer. -/
def test_bit_le (i : Nat) (bm : Bitmap) : Bool := bm.getD i false

/-- The scan of `find_next_zero_bit_le` with the number of remaining
bits to examine (`size - offset`) as the structural argument. -/
def findNextZeroGo (bm : Bitmap) (offset : Nat) : Nat → Nat
  | 0 => offset
  | fuel + 1 =>
    if bm.getD offset true = false then offset
    else findNextZeroGo bm (offset + 1) fuel

/-- `find_next_zero_bit_le(addr, size, offset)`: index of the first
clear bit in `[offset, size)`, or `size` if every bit there is set. -/
def find_next_zero_bit_le (bm : Bitmap) (size offset : Nat) : Nat :=
  if offset < size then findNextZeroGo bm offset (size - offset) else size

/-- `ext2_get_group_desc`: bounds-check the group number and return its
descriptor (the embedding keeps descriptor and bitmap together). -/
def ext2_get_group_desc (s : BallocState) (g : Nat) : Option (GroupDesc × Bitmap) :=
  s.groups.get? g

/-- `ext2_block_bitmap_valid`: the bits covering the block bitmap, the
inode bitmap and every inode-table block of the group must be set. -/
def ext2_block_bitmap_valid (s : BallocState) (desc : GroupDesc) (g : Nat)
    (bm : Bitmap) : Bool :=
  let gfb := ext2_group_first_block_no s g
  if test_bit_le (desc.bgBlockBitmap - gfb) bm = false then false
  else if test_bit_le (desc.bgInodeBitmap - gfb) bm = false then false
  else
    let offset := desc.bgInodeTable - gfb
    let nextZero := find_next_zero_bit_le bm (offset + s.itbPerGroup) offset
    if nextZero < offset + s.itbPerGroup then false
    else true

/-- `ext2_read_block_bitmap`: fetch the descriptor, read the bitmap
buffer and validate it; `none` models the `NULL` return (reported via
`ext2_error`). -/
def ext2_read_block_bitmap (s : BallocState) (g : Nat) : Option Bitmap :=
  match ext2_get_group_desc s g with
  | none => none
  | some (desc, bm) =>
    if ext2_block_bitmap_valid s desc g bm then some bm else none

/-- The run-extension loop of `ext2_allocate_in_bg` with the number of
bits still allowed (`count - num`) as the structural argument:
starting from bit `first + num`, keep doing `ext2_set_bit_atomic` on
consecutive bits while fewer than `count` bits are taken, the bit is
inside the group, and the bit was still clear. Returns the achieved
`num` and the updated bitmap. -/
def extendRunGo (bm : Bitmap) (nblocks first num : Nat) :
    Nat → Nat × Bitmap
  | 0 => (num, bm)
  | fuel + 1 =>
    if first + num < nblocks ∧ bm.getD (first + num) true = false then
      extendRunGo (bm.set (first + num) true) nblocks first (num + 1) fuel
    else (num, bm)

/-- `while (num < *count && ...)` of `ext2_allocate_in_bg`, entered
with the running `num`. -/
def ext2_extend_run (bm : Bitmap) (nblocks first num count : Nat) :
    Nat × Bitmap :=
  extendRunGo bm nblocks first num (count - num)

/-- `ext2_allocate_in_bg`: find the first zero bit of the group's
bitmap, then extend the run; `none` models the `-1` return. Returns the
group-relative first bit, the achieved count and the updated bitmap. -/
def ext2_allocate_in_bg (s : BallocState) (g : Nat) (bm : Bitmap)
    (count : Nat) : Option (Nat × Nat × Bitmap) :=
  if find_next_zero_bit_le bm (groupNBlocks s g) 0 ≥ groupNBlocks s g then none
  else if (ext2_extend_run bm (groupNBlocks s g)
      (find_next_zero_bit_le bm (groupNBlocks s g) 0) 0 count).1 = 0 then none
  else some (find_next_zero_bit_le bm (groupNBlocks s g) 0,
             (ext2_extend_run bm (groupNBlocks s g)
               (find_next_zero_bit_le bm (groupNBlocks s g) 0) 0 count).1,
             (ext2_extend_run bm (groupNBlocks s g)
               (find_next_zero_bit_le bm (groupNBlocks s g) 0) 0 count).2)

/-- `group_update_free_blocks`: add `count` (possibly negative) to the
descriptor's 16-bit free-blocks field. -/
def group_update_free_blocks (free : Nat) (count : Int) : Nat :=
  u16wrap ((free : Int) + count)

/-- The group-scan loop of `ext2_new_blocks` (balloc.c:372-416):
`group` is the group currently probed, the structural argument is the
number of iterations left (the loop runs `bgi = 0 .. ngroups-1`, so it
starts at `ngroups`); each iteration advances `group` to
`(group + 1) % ngroups`. Falls through to `-ENOSPC` when the
iterations are exhausted. On success returns the filesystem-wide block
number, the achieved count and the new state. -/
def ext2_new_blocks_loop (s : BallocState) (req : Nat) (group : Nat) :
    Nat → Except Errno (Nat × Nat × BallocState)
  | 0 => .error .enospc
  | fuel + 1 =>
    match ext2_get_group_desc s group with
    | none => .error .eio
    | some (gdp, _) =>
      if gdp.bgFreeBlocksCount = 0 then
        ext2_new_blocks_loop s req ((group + 1) % groupsCount s) fuel
      else
        match ext2_read_block_bitmap s group with
        | none => .error .eio
        | some bm =>
          match ext2_allocate_in_bg s group bm req with
          | none => ext2_new_blocks_loop s req ((group + 1) % groupsCount s) fuel
          | some (grpAllocBlk, count, bm2) =>
            .ok (grpAllocBlk + ext2_group_first_block_no s group, count,
              ⟨s.blocksCount, s.firstDataBlock, s.blocksPerGroup,
               s.itbPerGroup, s.sbBlock, s.blockSize,
               s.groups.set group
                 (⟨gdp.bgBlockBitmap, gdp.bgInodeBitmap, gdp.bgInodeTable,
                   group_update_free_blocks gdp.bgFreeBlocksCount
                     (-(count : Int))⟩, bm2),
               s.freeBlocksCounter - (count : Int)⟩)

/-- `ext2_new_blocks(inode, countp, errp)`: check the global counter
(read through a `__u16` local), then scan the groups starting from the
inode's `i_block_group`, one iteration per group. `req` is the
in-value of `*countp`; the out-value is the second component of a
successful result. -/
def ext2_new_blocks (s : BallocState) (iBlockGroup req : Nat) :
    Except Errno (Nat × Nat × BallocState) :=
  if read_positive_u16 s.freeBlocksCounter = 0 then .error .enospc
  else ext2_new_blocks_loop s req iBlockGroup (groupsCount s)

/-- `ext2_in_range(b, first, len)` from balloc.c:25. -/
def ext2_in_range (b first len : Nat) : Bool :=
  decide (first ≤ b) && decide (b ≤ first + len - 1)

/-- `ext2_data_blocks_valid` (balloc.c:150-168): filesystem-wide
validity of the run `[startBlk, startBlk + count - 1]`; the
early-return chain of the C function is the conjunction of its four
negated tests. Note the code rejects `start_blk <= s_first_data_block`
(strict inequality is required for acceptance). -/
def ext2_data_blocks_valid (s : BallocState) (startBlk count : Nat) : Bool :=
  decide (¬(startBlk + count - 1 < startBlk)) &&
  decide (¬(startBlk ≤ s.firstDataBlock)) &&
  decide (¬(startBlk + count - 1 ≥ s.blocksCount)) &&
  decide (¬(startBlk ≤ s.sbBlock ∧ startBlk + count - 1 ≥ s.sbBlock))

/-- `ext2_data_blocks_valid_bg` (balloc.c:178-200): group-local
validity as the conjunction of the negated early-return tests. The
inode-table test only checks whether either endpoint of the run lies
inside the table. -/
def ext2_data_blocks_valid_bg (desc : GroupDesc) (s : BallocState)
    (startBlk count : Nat) : Bool :=
  decide (¬(startBlk + count - 1 < startBlk)) &&
  !ext2_in_range desc.bgBlockBitmap startBlk count &&
  !ext2_in_range desc.bgInodeBitmap startBlk count &&
  !ext2_in_range startBlk desc.bgInodeTable s.itbPerGroup &&
  !ext2_in_range (startBlk + count - 1) desc.bgInodeTable s.itbPerGroup

/-- The clearing loop of `ext2_free_blocks` (balloc.c:282-287): do
`ext2_clear_bit_atomic` on `cnt` consecutive bits starting at `bit`;
an already-clear bit is reported but not counted. Returns the updated
bitmap and the number of bits actually cleared (`freed`). -/
def ext2_clear_run (bm : Bitmap) (bit cnt : Nat) : Bitmap × Nat :=
  match cnt with
  | 0 => (bm, 0)
  | Nat.succ k =>
    let was := bm.getD bit false
    let bm1 := bm.set bit false
    let r := ext2_clear_run bm1 (bit + 1) k
    (r.1, (if was then 1 else 0) + r.2)

/-- `ext2_free_blocks(inode, block, count)`. The C function returns
`void`; the embedding returns the new state together with `some freed`
when the run passed validation (and `freed` bits were cleared), or
`none` when the run was rejected (reported via `ext2_error`) or the
bitmap could not be read — in both of those cases the state is
returned unchanged. -/
def ext2_free_blocks (s : BallocState) (block count : Nat) :
    BallocState × Option Nat :=
  if ext2_data_blocks_valid s block count = false then (s, none)
  else
    match ext2_read_block_bitmap s
        ((block - s.firstDataBlock) / s.blocksPerGroup) with
    | none => (s, none)
    | some bm =>
      match ext2_get_group_desc s
          ((block - s.firstDataBlock) / s.blocksPerGroup) with
      | none => (s, none)
      | some (desc, _) =>
        if ext2_data_blocks_valid_bg desc s block count = false then (s, none)
        else
          (⟨s.blocksCount, s.firstDataBlock, s.blocksPerGroup, s.itbPerGroup,
            s.sbBlock, s.blockSize,
            s.groups.set ((block - s.firstDataBlock) / s.blocksPerGroup)
              (⟨desc.bgBlockBitmap, desc.bgInodeBitmap, desc.bgInodeTable,
                group_update_free_blocks desc.bgFreeBlocksCount
                  (((ext2_clear_run bm
                      ((block - s.firstDataBlock) % s.blocksPerGroup)
                      count).2 : Nat) : Int)⟩,
               (ext2_clear_run bm
                  ((block - s.firstDataBlock) % s.blocksPerGroup) count).1),
            s.freeBlocksCounter +
              (((ext2_clear_run bm
                  ((block - s.firstDataBlock) % s.blocksPerGroup)
                  count).2 : Nat) : Int)⟩,
           some (ext2_clear_run bm
              ((block - s.firstDataBlock) % s.blocksPerGroup) count).2)

/-! ## Block mapping (inode.c, `ext2_get_blocks`) -/

/-- Modelled from the spec: `EXT2_NDIR_BLOCKS` from the missing header
`ext2.h`; spec section 1: "Only direct blocks (12 per inode) are
supported". -/
def EXT2_NDIR_BLOCKS : Nat := 12

/-- The in-memory inode fields used by `ext2_get_blocks`: the
host-order view of the direct-block array (`le32_to_cpu(i_data[k])`),
the 512-byte-unit block count, and the allocation-locality group. -/
structure InodeMem where
  iData : List Nat
  iBlocks : Nat
  iBlockGroup : Nat
deriving DecidableEq, Repr

/-- `ext2_get_blocks(inode, iblock, maxblocks, bno, new, create)`
(inode.c:26-73). Returns the C return value paired with the (possibly
updated) inode and allocator state; error branches leave both
untouched. A successful result carries `(ret, bno)` where `ret` is the
mapped count (0 for a hole without `create`) and `bno` the mapped
block. Note the body ignores `maxblocks` and always asks the allocator
for one block. -/
def ext2_get_blocks (s : BallocState) (ino : InodeMem) (iblock : Nat)
    (create : Bool) :
    Except Errno (Nat × Nat) × InodeMem × BallocState :=
  if iblock ≥ EXT2_NDIR_BLOCKS then (.error .eio, ino, s)
  else
    let blockNo := ino.iData.getD iblock 0
    if blockNo > 0 then (.ok (1, blockNo), ino, s)
    else if create = false then (.ok (0, 0), ino, s)
    else
      match ext2_new_blocks s ino.iBlockGroup 1 with
      | .error e => (.error e, ino, s)
      | .ok (resb, count, s2) =>
        (.ok (count, resb),
         ⟨ino.iData.set iblock resb,
          ino.iBlocks + count * s.blockSize / 512,
          ino.iBlockGroup⟩,
         s2)

/-! ## Inode location (inode.c, `ext2_get_inode`) -/

/-- Modelled from the spec: `EXT2_ROOT_INO` from the missing header
`ext2.h`; spec section 3: "inode 2 is the root directory". -/
def EXT2_ROOT_INO : Nat := 2

/-- The superblock fields used by `ext2_get_inode`, plus the
`bg_inode_table` field of each group descriptor. -/
structure InodeLocParams where
  firstIno : Nat
  inodesCount : Nat
  inodesPerGroup : Nat
  inodeSize : Nat
  blockSize : Nat
  inodeTables : List Nat
deriving DecidableEq, Repr

/-- `ext2_get_inode(sb, ino, p)` (inode.c:231-280), reduced to the
location computation: validity of `ino`, then
`(block_group, block, offset_in_block)` of the on-disk record.
A missing group descriptor is the `gdp == NULL` branch, which also
lands on `einval`. -/
def ext2_get_inode (p : InodeLocParams) (ino : Nat) :
    Except Errno (Nat × Nat × Nat) :=
  if (ino ≠ EXT2_ROOT_INO ∧ ino < p.firstIno) ∨ ino > p.inodesCount then
    .error .einval
  else
    match p.inodeTables.get? ((ino - 1) / p.inodesPerGroup) with
    | none => .error .einval
    | some tbl =>
      .ok ((ino - 1) / p.inodesPerGroup,
           tbl + ((ino - 1) % p.inodesPerGroup) * p.inodeSize / p.blockSize,
           ((ino - 1) % p.inodesPerGroup) * p.inodeSize % p.blockSize)

/-! ## Mount-time group count (super.c, `ext2_fill_super`) -/

/-- The group-count computation of `ext2_fill_super` (super.c:653-655):
`s_groups_count = (blocks_count - first_data_block - 1) / blocks_per_group + 1`
with C integer (floor) division. -/
def ext2_groups_count (blocksCount firstDataBlock blocksPerGroup : Nat) : Nat :=
  (blocksCount - firstDataBlock - 1) / blocksPerGroup + 1

/-! ## Symlink creation (namei.c, `ext2_symlink`) -/

/-- Modelled from the spec: `sizeof(EXT2_I(inode)->i_data)` from the
missing header `ext2.h`; spec section 9: "The `60` threshold is
`sizeof(direct-block array)`". -/
def EXT2_I_DATA_BYTES : Nat := 60

/-- Which storage path a successful `ext2_symlink` took. -/
inductive SymlinkKind where
  | fast
  | slow
deriving DecidableEq, Repr

/-- `ext2_symlink(idmap, dir, dentry, symname)` (namei.c:126-170),
reduced to its storage decision and resource effects. `symname` is the
target without its NUL terminator, so the code's `l = strlen+1` is
`symname.length + 1`. The result pairs the outcome with the free-inode
and free-block counters after the call (the length check precedes
inode allocation; a failed slow-path write rolls the inode back). -/
def ext2_symlink (blockSize : Nat) (freeInodes freeBlocks : Nat)
    (symname : List Nat) :
    Except Errno SymlinkKind × Nat × Nat :=
  let l := symname.length + 1
  if l > blockSize then (.error .enametoolong, freeInodes, freeBlocks)
  else if freeInodes = 0 then (.error .enospc, freeInodes, freeBlocks)
  else if l > EXT2_I_DATA_BYTES then
    if freeBlocks = 0 then (.error .enospc, freeInodes, freeBlocks)
    else (.ok .slow, freeInodes - 1, freeBlocks - 1)
  else (.ok .fast, freeInodes - 1, freeBlocks)

/-! ## Byte order of the direct-block array (inode.c) -/

/-- Host byte order. -/
inductive ByteOrder where
  | little
  | big
deriving DecidableEq, Repr

/-- The four little-endian bytes of a 32-bit value: what `cpu_to_le32`
produces on any host, and what every on-disk 32-bit field holds. -/
def cpu_to_le32 (n : Nat) : List Nat :=
  [n % 256, n / 256 % 256, n / 65536 % 256, n / 16777216 % 256]

/-- The bytes stored by a plain C assignment of a 32-bit value into a
memory word on a host of the given byte order (no `cpu_to_le32`). -/
def store_u32 (host : ByteOrder) (n : Nat) : List Nat :=
  match host with
  | .little => cpu_to_le32 n
  | .big => (cpu_to_le32 n).reverse

/-- Modelled from the spec: `EXT2_N_BLOCKS` from the missing header
`ext2.h`; spec section 3: twelve direct block numbers "with reserved
tail for indirect pointers we do not use" packed in a 60-byte array,
so 15 32-bit slots. -/
def EXT2_N_BLOCKS : Nat := 15

/-- The `i_data` copy of `ext2_iget` (inode.c:383-384):
`for (n = 0; n < EXT2_N_BLOCKS; n++) ei->i_data[n] = raw_inode->i_block[n];`
on the byte-level view (each slot a 4-byte word, copied verbatim,
no byteswap). -/
def ext2_iget_copy_i_data (rawIBlock : List (List Nat)) : List (List Nat) :=
  (List.range EXT2_N_BLOCKS).map (fun n => rawIBlock.getD n (cpu_to_le32 0))

/-- The `i_block` write-back of `ext2_do_write_inode` (inode.c:430-432)
for non-device inodes:
`for (n = 0; n < EXT2_N_BLOCKS; n++) raw_inode->i_block[n] = ei->i_data[n];`
(again a verbatim copy). -/
def ext2_do_write_inode_i_block (iData : List (List Nat)) : List (List Nat) :=
  (List.range EXT2_N_BLOCKS).map (fun n => iData.getD n (cpu_to_le32 0))

/-- The store of inode.c:63, `ei->i_data[iblock] = resb;`, on the
byte-level view: the allocated block number `resb` (a host-order
`unsigned long`) is written into the 32-bit slot without
`cpu_to_le32`, so the slot receives the host-order bytes. -/
def ext2_get_blocks_store (host : ByteOrder) (iData : List (List Nat))
    (iblock resb : Nat) : List (List Nat) :=
  iData.set iblock (store_u32 host resb)

/-! ## Directory record store (dir.c)

A directory entry is the parsed view of an `ext2_dir_entry_2` record:
its inode number, its `rec_len`, and its `name_len` bytes of name
(names are byte lists). A chunk is its list of records in offset
order; navigating by `rec_len` in the byte buffer is exactly walking
this list, and a record never spans a chunk boundary, so a directory's
readable content is a list of chunks. Pages that can fail to read or
to validate are modelled where a claim needs them (`DirPage`). -/

/-- A directory record: the parsed `ext2_dirent`. `name.length` plays
the role of the on-disk `name_len` byte. -/
structure DirRec where
  ino : Nat
  recLen : Nat
  name : List Nat
deriving DecidableEq, Repr

/-- One directory chunk (block-sized), as its record list in offset
order. -/
abbrev Chunk := List DirRec

/-- Modelled from the spec: `EXT2_DIR_REC_LEN(name_len)` from the
missing header `ext2.h`; spec section 4.6: "the canonical record
length for a name of `n` bytes is `round_up_to_4(8 + n)`". -/
def EXT2_DIR_REC_LEN (nameLen : Nat) : Nat :=
  (nameLen + 8 + 3) / 4 * 4

/-- `ext2_match(len, name, de)` (dir.c:158-165): length equal, live
entry, bytes equal. -/
def ext2_match (name : List Nat) (de : DirRec) : Bool :=
  if name.length ≠ de.name.length then false
  else if de.ino = 0 then false
  else decide (name = de.name)

/-- Outcome of scanning one chunk in `ext2_add_link`'s loop. -/
inductive AddScan where
  | inserted (c : Chunk)
  | hitExist
  | hitZeroRec
  | next
deriving DecidableEq, Repr

/-- The per-record scan of `ext2_add_link` (dir.c:376-401) over one
chunk: error on a zero `rec_len`, `-EEXIST` on a name match, reuse a
tombstone whose `rec_len` fits, or split a live record with enough
slack (`got_it`, dir.c:408-423); otherwise advance by `rec_len`. -/
def ext2_add_link_scan (reclen : Nat) (name : List Nat) (ino : Nat) :
    Chunk → AddScan
  | [] => .next
  | de :: rest =>
    if de.recLen = 0 then .hitZeroRec
    else if ext2_match name de then .hitExist
    else
      let nameLen := EXT2_DIR_REC_LEN de.name.length
      if de.ino = 0 ∧ de.recLen ≥ reclen then
        .inserted (⟨ino, de.recLen, name⟩ :: rest)
      else if de.recLen ≥ nameLen + reclen then
        .inserted (⟨de.ino, nameLen, de.name⟩ ::
                   ⟨ino, de.recLen - nameLen, name⟩ :: rest)
      else
        match ext2_add_link_scan reclen name ino rest with
        | .inserted rest2 => .inserted (de :: rest2)
        | o => o

/-- The chunk-list traversal of `ext2_add_link`: try each existing
chunk in order; when every chunk is exhausted the loop hits `i_size`
and writes a fresh chunk with `rec_len = chunk_size` past end-of-file
(which drives block allocation through the mapping layer — the `Bool`
of a successful result records that a new chunk was appended). -/
def ext2_add_link_go (chunkSize reclen : Nat) (name : List Nat) (ino : Nat) :
    List Chunk → Except Errno (List Chunk × Bool)
  | [] => .ok ([[⟨ino, chunkSize, name⟩]], true)
  | c :: cs =>
    match ext2_add_link_scan reclen name ino c with
    | .hitZeroRec => .error .eio
    | .hitExist => .error .eexist
    | .inserted c2 => .ok (c2 :: cs, false)
    | .next =>
      match ext2_add_link_go chunkSize reclen name ino cs with
      | .ok (cs2, b) => .ok (c :: cs2, b)
      | .error e => .error e

/-- `ext2_add_link(dentry, inode)` (dir.c:346-435). Pages are assumed
readable here (a failing `ext2_get_folio` is modelled separately for
the empty-check claim); an error return leaves the directory
untouched, exactly as the `out_unlock` path does. -/
def ext2_add_link (chunkSize : Nat) (dir : List Chunk) (name : List Nat)
    (ino : Nat) : Except Errno (List Chunk × Bool) :=
  ext2_add_link_go chunkSize (EXT2_DIR_REC_LEN name.length) name ino dir

/-- The record scan of `ext2_find_entry` (dir.c:265-285) inside one
chunk: `-EIO` on a zero `rec_len`, otherwise the index of the first
matching record. -/
def ext2_find_entry_scan (name : List Nat) : Chunk → Except Errno (Option Nat)
  | [] => .ok none
  | de :: rest =>
    if de.recLen = 0 then .error .eio
    else if ext2_match name de then .ok (some 0)
    else
      match ext2_find_entry_scan name rest with
      | .ok (some i) => .ok (some (i + 1))
      | .ok none => .ok none
      | .error e => .error e

/-- `ext2_find_entry(dir, child, foliop)` over readable pages: the
`(chunk index, record index)` of the first live record with the wanted
name, `-ENOENT` if the scan finds nothing. -/
def ext2_find_entry (dir : List Chunk) (name : List Nat) :
    Except Errno (Nat × Nat) :=
  match dir with
  | [] => .error .enoent
  | c :: cs =>
    match ext2_find_entry_scan name c with
    | .error e => .error e
    | .ok (some i) => .ok (0, i)
    | .ok none =>
      match ext2_find_entry cs name with
      | .ok (ci, ri) => .ok (ci + 1, ri)
      | .error e => .error e

/-- The in-chunk work of `ext2_delete_entry` (dir.c:441-484): walk the
chunk from its start to the target (erroring on a zero `rec_len`); if
the target has a predecessor, merge the target into it
(`pde->rec_len += target->rec_len`); otherwise tombstone the target in
place (`dir->inode = 0`). -/
def ext2_delete_entry_chunk : Chunk → Nat → Except Errno Chunk
  | [], _ => .error .eio
  | de :: rest, 0 => .ok (⟨0, de.recLen, de.name⟩ :: rest)
  | de :: rest, Nat.succ ri =>
    if de.recLen = 0 then .error .eio
    else if ri = 0 then
      match rest with
      | [] => .error .eio
      | tgt :: rest2 => .ok (⟨de.ino, de.recLen + tgt.recLen, de.name⟩ :: rest2)
    else
      match ext2_delete_entry_chunk rest ri with
      | .ok rest2 => .ok (de :: rest2)
      | .error e => .error e

/-- `ext2_delete_entry(de, folio)` for the record at `(ci, ri)`. -/
def ext2_delete_entry (dir : List Chunk) (ci ri : Nat) :
    Except Errno (List Chunk) :=
  match dir.get? ci with
  | none => .error .eio
  | some c =>
    match ext2_delete_entry_chunk c ri with
    | .ok c2 => .ok (dir.set ci c2)
    | .error e => .error e

/-- `ext2_make_empty(inode, parent)` (dir.c:489-528): the fresh
directory chunk holding `"."` (`rec_len = EXT2_DIR_REC_LEN(1)`) and
`".."` (`rec_len = chunk_size - EXT2_DIR_REC_LEN(1)`). Byte 46 is '.'. -/
def ext2_make_empty (chunkSize selfIno parentIno : Nat) : Chunk :=
  [⟨selfIno, EXT2_DIR_REC_LEN 1, [46]⟩,
   ⟨parentIno, chunkSize - EXT2_DIR_REC_LEN 1, [46, 46]⟩]

/-- A directory page as handed to `ext2_get_folio`: either the read
fails (`readErr`, the `IS_ERR(folio)` branch) or it yields the chunks
it covers. -/
inductive DirPage where
  | readErr
  | chunks (cs : List Chunk)
deriving DecidableEq, Repr

/-- The per-record tests of `ext2_check_folio` (dir.c:76-85):
`rec_len ≥ EXT2_DIR_REC_LEN(1)`, `rec_len` a multiple of 4,
`rec_len ≥ EXT2_DIR_REC_LEN(name_len)`, and `inode ≤ max_inumber`
(the chunk-boundary test cannot fail on the parsed chunk view). -/
def ext2_check_rec (maxInumber : Nat) (de : DirRec) : Bool :=
  if de.recLen < EXT2_DIR_REC_LEN 1 then false
  else if de.recLen % 4 ≠ 0 then false
  else if de.recLen < EXT2_DIR_REC_LEN de.name.length then false
  else if de.ino > maxInumber then false
  else true

/-- `ext2_check_folio` on one chunk: every record passes
`ext2_check_rec` and the records end exactly at the chunk limit
(the `offs != limit` test at dir.c:87). -/
def ext2_check_chunk (chunkSize maxInumber : Nat) (c : Chunk) : Bool :=
  c.all (ext2_check_rec maxInumber) &&
  decide ((c.map DirRec.recLen).sum = chunkSize)

/-- `ext2_get_folio(dir, n, quiet, foliop)` (dir.c:132-151): a failed
read or a failed `ext2_check_folio` is `-EIO`. -/
def ext2_get_folio (chunkSize maxInumber : Nat) (p : DirPage) :
    Except Errno (List Chunk) :=
  match p with
  | .readErr => .error .eio
  | .chunks cs =>
    if cs.all (ext2_check_chunk chunkSize maxInumber) then .ok cs
    else .error .eio

/-- The per-record test of `ext2_empty_dir`'s loop (dir.c:548-567): a
zero `rec_len` aborts as non-empty; a live record must be `"."` with
the directory's own inode number or `".."`. -/
def ext2_empty_dir_rec_ok (selfIno : Nat) (de : DirRec) : Bool :=
  if de.recLen = 0 then false
  else if de.ino ≠ 0 then
    if de.name.getD 0 0 ≠ 46 then false
    else if de.name.length > 2 then false
    else if de.name.length < 2 then decide (de.ino = selfIno)
    else decide (de.name.getD 1 0 = 46)
  else true

/-- `ext2_empty_dir(inode)` (dir.c:533-576): every page must read and
validate (a failing `ext2_get_folio` returns 0 = non-empty), and every
record must pass the dot/dotdot test. -/
def ext2_empty_dir (chunkSize maxInumber selfIno : Nat)
    (pages : List DirPage) : Bool :=
  pages.all fun p =>
    match ext2_get_folio chunkSize maxInumber p with
    | .error _ => false
    | .ok cs => cs.all fun c => c.all (ext2_empty_dir_rec_ok selfIno)

/-! ## mkdir / rmdir / eviction pipeline (namei.c, inode.c, ialloc.c)

For the counter round-trip claim the allocators are represented by
their counter effects on the success path (`ext2_new_blocks` with
`count = 1` decrements the free-blocks counter by one and fails with
`-ENOSPC` when nothing is free; `ext2_free_blocks`/`ext2_free_inode`
increment them; `ext2_new_inode` decrements the free-inodes counter),
while the directory content goes through the dir.c embedding above. -/

/-- The filesystem state threaded through the mkdir/rmdir pipeline:
the two global counters, the parent directory's chunks and its link
count. -/
structure FsOpState where
  freeBlocks : Nat
  freeInodes : Nat
  parent : List Chunk
  parentNlink : Nat
deriving DecidableEq, Repr

/-- The new directory inode produced by a successful mkdir: its inode
number, its pages, and the number of data blocks allocated to it. -/
structure ChildDir where
  ino : Nat
  dir : List DirPage
  blocks : Nat
deriving DecidableEq, Repr

/-- `ext2_mkdir(idmap, dir, dentry, mode)` (namei.c:172-210) followed
through `ext2_new_inode`, `ext2_make_empty` and `ext2_add_link`:
- `inode_inc_link_count(dir)`;
- allocate an inode (`-ENOSPC` rolls the parent link back);
- `ext2_make_empty` writes the child's first chunk, allocating one
  block through the mapping layer (`-ENOSPC` when no block is free;
  the `out_fail` path discards the child, freeing its inode);
- `ext2_add_link` inserts the entry into the parent, allocating one
  more block when it has to append a chunk; any failure takes
  `out_fail`, freeing the child's block and inode.
A successful result carries the new state, the child, and whether the
parent directory was extended by a fresh chunk. -/
def ext2_mkdir (chunkSize : Nat) (st : FsOpState) (name : List Nat)
    (childIno parentIno : Nat) :
    Except Errno (FsOpState × ChildDir × Bool) :=
  if st.freeInodes = 0 then .error .enospc
  else if st.freeBlocks = 0 then .error .enospc
  else
    let childChunk := ext2_make_empty chunkSize childIno parentIno
    match ext2_add_link chunkSize st.parent name childIno with
    | .error e => .error e
    | .ok (parent2, appended) =>
      if appended ∧ st.freeBlocks - 1 = 0 then .error .enospc
      else
        .ok (⟨st.freeBlocks - 1 - (if appended then 1 else 0),
              st.freeInodes - 1, parent2, st.parentNlink + 1⟩,
             ⟨childIno, [.chunks [childChunk]], 1⟩,
             appended)

/-- `ext2_rmdir(dir, dentry)` (namei.c:212-228) followed by the
eviction of the child inode at last `iput` (`ext2_evict_inode`,
inode.c:449-476): the empty-check gates with `-ENOTEMPTY`; then
`ext2_unlink` finds and deletes the parent's entry; eviction truncates
the child (releasing its data blocks through `ext2_free_blocks`) and
frees its inode. -/
def ext2_rmdir_evict (chunkSize maxInumber : Nat) (st : FsOpState)
    (child : ChildDir) (name : List Nat) : Except Errno FsOpState :=
  if ext2_empty_dir chunkSize maxInumber child.ino child.dir = false then
    .error .enotempty
  else
    match ext2_find_entry st.parent name with
    | .error e => .error e
    | .ok (ci, ri) =>
      match ext2_delete_entry st.parent ci ri with
      | .error e => .error e
      | .ok parent2 =>
        .ok ⟨st.freeBlocks + child.blocks, st.freeInodes + 1,
             parent2, st.parentNlink - 1⟩

/-! ## Helper lemmas -/

theorem list_range_map_getD (l : List α) (d : α) :
    (List.range l.length).map (fun n => l.getD n d) = l := by
  induction l with
  | nil => rfl
  | cons a t ih =>
    have h := List.range_succ_eq_map t.length
    simp only [List.length_cons, h, List.map_cons, List.map_map]
    exact congrArg (a :: ·) ih

/-! ## Claim C1 -/

/-- Concrete state for the C1 counterexample: one group of eight
blocks, metadata bits set, two free blocks. -/
def c1State : BallocState :=
  ⟨64, 1, 8, 1, 1, 1024,
   [(⟨3, 4, 5, 2⟩, [true, true, true, true, true, true, false, false])], 2⟩

/-- Concrete inode for the C1 counterexample: all direct slots empty. -/
def c1Inode : InodeMem :=
  ⟨[0, 0, 0, 0, 0, 0, 0, 0, 0, 0, 0, 0, 0, 0, 0], 0, 0⟩

/-- Claim C1, counterexample: at `iblock = 12` the block-mapping
operation fails with the IO error kind (`-EIO`, inode.c:38), not with
the INVALID kind (`-EINVAL`) the claim states, for both values of
`create`. -/
theorem ext2_get_blocks_invalid_counterexample :
    (ext2_get_blocks c1State c1Inode 12 true).1 = Except.error Errno.eio ∧
    (ext2_get_blocks c1State c1Inode 12 false).1 = Except.error Errno.eio ∧
    Errno.eio ≠ Errno.einval := by
  refine ⟨rfl, rfl, by decide⟩

/-- Claim C1, amended: for every inode and every logical block index
`iblock ≥ 12`, `ext2_get_blocks` fails with the IO error kind
(`-EIO`), for both `create = true` and `create = false`, and leaves
the inode's direct-block array and the allocator state unchanged. -/
theorem ext2_get_blocks_beyond_direct_range (s : BallocState) (ino : InodeMem)
    (iblock : Nat) (create : Bool) (h : EXT2_NDIR_BLOCKS ≤ iblock) :
    ext2_get_blocks s ino iblock create = (.error .eio, ino, s) := by
  unfold ext2_get_blocks
  rw [if_pos h]

/-- Witness for the amended C1 theorem at `iblock = 13`. -/
theorem ext2_get_blocks_beyond_direct_range_witness :
    EXT2_NDIR_BLOCKS ≤ 13 ∧
    ext2_get_blocks c1State c1Inode 13 true = (.error .eio, c1Inode, c1State) :=
  ⟨by decide,
   ext2_get_blocks_beyond_direct_range c1State c1Inode 13 true (by decide)⟩

/-! ## Claim C2 -/

set_option maxRecDepth 8000 in
/-- Claim C2, counterexample: a target of exactly 60 bytes takes the
slow path (the code compares `strlen + 1` with the 60-byte array), and
a target of exactly `block_size` bytes fails with `-ENAMETOOLONG`
instead of taking the slow path. -/
theorem ext2_symlink_boundary_counterexample :
    (ext2_symlink 1024 1 1 (List.replicate 60 1)).1 = Except.ok SymlinkKind.slow ∧
    SymlinkKind.slow ≠ SymlinkKind.fast ∧
    (ext2_symlink 1024 1 1 (List.replicate 1024 1)).1 =
      Except.error Errno.enametoolong := by
  refine ⟨rfl, by decide, rfl⟩

/-- Claim C2, amended: with a free inode (and a free block for the
slow path), a symlink target of length ≤ 59 is stored inline (fast
symlink, no data block), a target of length in `[60, block_size - 1]`
goes through the page mapping (slow symlink), and a target of length
≥ `block_size` fails with `-ENAMETOOLONG` without allocating an inode
(the counters are returned unchanged). The shifts by one relative to
the claim come from the NUL terminator counted in `l = strlen + 1`. -/
theorem ext2_symlink_thresholds (blockSize fi fb : Nat) (s : List Nat)
    (hbs : 60 ≤ blockSize) (hfi : 1 ≤ fi) (hfb : 1 ≤ fb) :
    (s.length ≤ 59 →
      ext2_symlink blockSize fi fb s = (.ok .fast, fi - 1, fb)) ∧
    (60 ≤ s.length → s.length < blockSize →
      ext2_symlink blockSize fi fb s = (.ok .slow, fi - 1, fb - 1)) ∧
    (blockSize ≤ s.length →
      ext2_symlink blockSize fi fb s = (.error .enametoolong, fi, fb)) := by
  unfold ext2_symlink EXT2_I_DATA_BYTES
  refine ⟨fun h1 => ?_, fun h1 h2 => ?_, fun h1 => ?_⟩
  · rw [if_neg (by omega), if_neg (by omega), if_neg (by omega)]
  · rw [if_neg (by omega), if_neg (by omega), if_pos (by omega),
        if_neg (by omega)]
  · rw [if_pos (by omega)]

/-- Witness for the amended C2 theorem on a 10-byte target. -/
theorem ext2_symlink_thresholds_witness :
    (List.replicate 10 1).length ≤ 59 ∧
    ext2_symlink 1024 1 1 (List.replicate 10 1) = (.ok .fast, 0, 1) :=
  ⟨by decide,
   (ext2_symlink_thresholds 1024 1 1 (List.replicate 10 1)
     (by decide) (by decide) (by decide)).1 (by decide)⟩

/-! ## Claim C6 -/

/-- Claim C6, confirmed: on a superblock with `first_ino > 2`, at
least two inodes, and enough group descriptors to cover
`inodes_count`, `ext2_get_inode` locates every valid inode number
(the root 2, or `first_ino ≤ ino ≤ inodes_count`) at group
`(ino-1) / inodes_per_group`, block
`inode_table + ((ino-1) % inodes_per_group) * inode_size / block_size`,
byte offset `((ino-1) % inodes_per_group) * inode_size % block_size`,
and fails with `-EINVAL` on every other inode number. -/
theorem ext2_get_inode_location (p : InodeLocParams)
    (hfi : EXT2_ROOT_INO < p.firstIno) (hcnt : EXT2_ROOT_INO ≤ p.inodesCount)
    (hipg : 0 < p.inodesPerGroup)
    (hcap : p.inodesCount ≤ p.inodeTables.length * p.inodesPerGroup)
    (ino : Nat) :
    ((ino = EXT2_ROOT_INO ∨ (p.firstIno ≤ ino ∧ ino ≤ p.inodesCount)) →
      ∃ tbl, p.inodeTables.get? ((ino - 1) / p.inodesPerGroup) = some tbl ∧
        ext2_get_inode p ino =
          .ok ((ino - 1) / p.inodesPerGroup,
               tbl + ((ino - 1) % p.inodesPerGroup) * p.inodeSize / p.blockSize,
               ((ino - 1) % p.inodesPerGroup) * p.inodeSize % p.blockSize)) ∧
    (¬(ino = EXT2_ROOT_INO ∨ (p.firstIno ≤ ino ∧ ino ≤ p.inodesCount)) →
      ext2_get_inode p ino = .error .einval) := by
  unfold EXT2_ROOT_INO at *
  constructor
  · intro hvalid
    have hlt : (ino - 1) / p.inodesPerGroup < p.inodeTables.length := by
      have hcap2 : p.inodesCount ≤ p.inodesPerGroup * p.inodeTables.length := by
        rw [Nat.mul_comm]
        exact hcap
      exact Nat.div_lt_of_lt_mul (by omega)
    obtain ⟨tbl, htbl⟩ : ∃ tbl,
        p.inodeTables.get? ((ino - 1) / p.inodesPerGroup) = some tbl := by
      rcases List.get?_eq_get hlt with h
      exact ⟨_, h⟩
    refine ⟨tbl, htbl, ?_⟩
    unfold ext2_get_inode EXT2_ROOT_INO
    rw [if_neg (by omega), htbl]

  · intro hinvalid
    unfold ext2_get_inode EXT2_ROOT_INO
    rw [if_pos (by omega)]

/-- Witness for the C6 theorem: two groups of eight inodes each,
`first_ino = 11`, probing inode 12 (group 1, second table slot). -/
theorem ext2_get_inode_location_witness :
    (2 : Nat) < 11 ∧
    ext2_get_inode ⟨11, 16, 8, 128, 1024, [21, 37]⟩ 12 = .ok (1, 37, 384) := by
  have h := (ext2_get_inode_location ⟨11, 16, 8, 128, 1024, [21, 37]⟩
    (by decide) (by decide) (by decide) (by decide) 12).1 (by decide)
  obtain ⟨tbl, htbl, hloc⟩ := h
  have h0 : some tbl = some 37 := by
    rw [← htbl]
    rfl
  have h1 := Option.some.inj h0
  subst h1
  exact ⟨by decide, hloc⟩

/-! ## Claim C7 -/

/-- Claim C7, counterexample: for 8192 blocks, `first_data_block = 1`
and 8192 blocks per group, the mount computation yields one group
(floor division, super.c:653-655) while the claim's formula
`⌈(total - first_data_block - 1) / blocks_per_group⌉ + 1` yields two. -/
theorem ext2_groups_count_counterexample :
    ext2_groups_count 8192 1 8192 = 1 ∧
    (8192 - 1 - 1 + 8192 - 1) / 8192 + 1 = 2 := by
  constructor <;> decide

/-- Claim C7, amended: for every superblock with
`blocks_per_group > 0` and `first_data_block < total_blocks`, the
number of block groups computed at mount equals
`⌈(total_blocks - first_data_block) / blocks_per_group⌉`
(equivalently `⌊(total_blocks - first_data_block - 1) / blocks_per_group⌋ + 1`,
which is what the code computes). -/
theorem ext2_groups_count_eq_ceil (b f g : Nat) (hg : 0 < g) (hfb : f < b) :
    ext2_groups_count b f g = (b - f + g - 1) / g := by
  unfold ext2_groups_count
  have h1 : (b - f - 1 + g) / g = (b - f - 1) / g + 1 :=
    Nat.add_div_right (b - f - 1) hg
  have h2 : b - f - 1 + g = b - f + g - 1 := by omega
  rw [← h1, h2]

/-- Witness for the amended C7 theorem at the counterexample's
superblock. -/
theorem ext2_groups_count_eq_ceil_witness :
    (0 : Nat) < 8192 ∧ (1 : Nat) < 8192 ∧
    ext2_groups_count 8192 1 8192 = (8192 - 1 + 8192 - 1) / 8192 :=
  ⟨by decide, by decide, ext2_groups_count_eq_ceil 8192 1 8192 (by decide) (by decide)⟩

/-! ## Claim C8 -/

/-- Claim C8: loading an inode and writing it back do copy the
direct-block array verbatim (inode.c:383-384 and 430-432), but the
allocate-on-write store of inode.c:63 writes the host-order value of
the allocated block number without `cpu_to_le32`: on a big-endian host
the slot does not receive the little-endian form of the block number
(shown here for block number 1), contradicting the documented
invariant. On a little-endian host the bytes coincide, which is why
the slip is invisible there. -/
theorem i_data_little_endian_invariant_violated :
    (∀ raw : List (List Nat), raw.length = EXT2_N_BLOCKS →
      ext2_iget_copy_i_data raw = raw) ∧
    (∀ d : List (List Nat), d.length = EXT2_N_BLOCKS →
      ext2_do_write_inode_i_block d = d) ∧
    (ext2_get_blocks_store .big [cpu_to_le32 0] 0 1).getD 0 [] ≠ cpu_to_le32 1 ∧
    (ext2_get_blocks_store .little [cpu_to_le32 0] 0 1).getD 0 [] = cpu_to_le32 1 := by
  refine ⟨fun raw h => ?_, fun d h => ?_, by decide, by decide⟩
  · unfold ext2_iget_copy_i_data
    rw [← h]
    exact list_range_map_getD raw (cpu_to_le32 0)
  · unfold ext2_do_write_inode_i_block
    rw [← h]
    exact list_range_map_getD d (cpu_to_le32 0)

/-- Witness for the C8 theorem's universally quantified verbatim-copy
parts at a concrete on-disk array. -/
theorem i_data_little_endian_invariant_violated_witness :
    (List.replicate 15 (cpu_to_le32 7)).length = EXT2_N_BLOCKS ∧
    ext2_iget_copy_i_data (List.replicate 15 (cpu_to_le32 7)) =
      List.replicate 15 (cpu_to_le32 7) :=
  ⟨by decide,
   (i_data_little_endian_invariant_violated).1
     (List.replicate 15 (cpu_to_le32 7)) (by decide)⟩

/-! ## Claim C10 -/

/-- Claim C10, confirmed: if any page of a directory fails to read or
fails record validation, `ext2_empty_dir` reports the directory as
non-empty, so `ext2_rmdir` returns `-ENOTEMPTY`. -/
theorem ext2_empty_dir_bad_page_not_empty (chunkSize maxInumber : Nat)
    (st : FsOpState) (child : ChildDir) (name : List Nat) (p : DirPage)
    (hp : p ∈ child.dir)
    (hbad : ∃ e, ext2_get_folio chunkSize maxInumber p = .error e) :
    ext2_empty_dir chunkSize maxInumber child.ino child.dir = false ∧
    ext2_rmdir_evict chunkSize maxInumber st child name = .error .enotempty := by
  obtain ⟨e, he⟩ := hbad
  have hne : ext2_empty_dir chunkSize maxInumber child.ino child.dir = false := by
    apply Bool.eq_false_iff.mpr
    intro hall
    have := (List.all_eq_true.mp hall) p hp
    rw [he] at this
    simp at this
  refine ⟨hne, ?_⟩
  unfold ext2_rmdir_evict
  rw [if_pos hne]

/-- Witness for the C10 theorem: a directory whose only page fails to
read. -/
theorem ext2_empty_dir_bad_page_not_empty_witness :
    DirPage.readErr ∈ [DirPage.readErr] ∧
    ext2_rmdir_evict 1024 2048 ⟨1, 1, [], 2⟩ ⟨15, [.readErr], 1⟩ [97] =
      .error .enotempty :=
  ⟨by decide,
   (ext2_empty_dir_bad_page_not_empty 1024 2048 ⟨1, 1, [], 2⟩
     ⟨15, [.readErr], 1⟩ [97] .readErr (by decide) ⟨.eio, rfl⟩).2⟩

/-! ## Claim C5 -/

/-- A record that `ext2_add_link`'s scan accepts as a slot for a new
entry of canonical length `reclen`: a tombstone with enough room, or a
live record with enough slack to split. -/
def slot_fits (reclen : Nat) (de : DirRec) : Bool :=
  decide ((de.ino = 0 ∧ reclen ≤ de.recLen) ∨
          EXT2_DIR_REC_LEN de.name.length + reclen ≤ de.recLen)

/-- Flat scan over the records of a directory in offset order: `true`
exactly when a live record matching `name` appears strictly before any
usable slot and before any zero-length record. -/
def scan_first_hit_is_match (reclen : Nat) (name : List Nat) :
    List DirRec → Bool
  | [] => false
  | de :: rest =>
    if de.recLen = 0 then false
    else if ext2_match name de then true
    else if slot_fits reclen de then false
    else scan_first_hit_is_match reclen name rest

theorem scan_first_hit_append (reclen : Nat) (name : List Nat) (ino : Nat)
    (c : Chunk) (l : List DirRec) :
    scan_first_hit_is_match reclen name (c ++ l) =
      match ext2_add_link_scan reclen name ino c with
      | .hitExist => true
      | .next => scan_first_hit_is_match reclen name l
      | _ => false := by
  induction c with
  | nil => rfl
  | cons de rest ih =>
    by_cases h0 : de.recLen = 0
    · simp only [List.cons_append, scan_first_hit_is_match,
                 ext2_add_link_scan, if_pos h0]
    · by_cases h1 : ext2_match name de = true
      · simp only [List.cons_append, scan_first_hit_is_match,
                   ext2_add_link_scan, if_neg h0, h1, if_true]
      · by_cases h2 : de.ino = 0 ∧ reclen ≤ de.recLen
        · have hs : slot_fits reclen de = true := by
            unfold slot_fits
            exact decide_eq_true (Or.inl h2)
          simp only [List.cons_append, scan_first_hit_is_match,
                     ext2_add_link_scan, if_neg h0,
                     Bool.not_eq_true] at h1 ⊢
          rw [h1, hs]
          simp only [Bool.false_eq_true, if_false, if_true]
          rw [if_pos (by omega : de.ino = 0 ∧ de.recLen ≥ reclen)]
        · by_cases h3 : EXT2_DIR_REC_LEN de.name.length + reclen ≤ de.recLen
          · have hs : slot_fits reclen de = true := by
              unfold slot_fits
              exact decide_eq_true (Or.inr h3)
            simp only [List.cons_append, scan_first_hit_is_match,
                       ext2_add_link_scan, if_neg h0,
                       Bool.not_eq_true] at h1 ⊢
            rw [h1, hs]
            simp only [Bool.false_eq_true, if_false, if_true]
            rw [if_neg (by omega :
                  ¬(de.ino = 0 ∧ de.recLen ≥ reclen)),
                if_pos (by omega :
                  de.recLen ≥ EXT2_DIR_REC_LEN de.name.length + reclen)]
          · have hs : slot_fits reclen de = false := by
              unfold slot_fits
              simp only [decide_eq_false_iff_not]
              push_neg
              exact ⟨fun ha => by omega, by omega⟩
            simp only [List.cons_append, scan_first_hit_is_match,
                       ext2_add_link_scan, if_neg h0,
                       Bool.not_eq_true] at h1 ⊢
            rw [h1, hs]
            simp only [Bool.false_eq_true, if_false]
            rw [if_neg (by omega :
                  ¬(de.ino = 0 ∧ de.recLen ≥ reclen)),
                if_neg (by omega :
                  ¬(de.recLen ≥ EXT2_DIR_REC_LEN de.name.length + reclen))]
            rw [List.append_eq, ih]
            cases ext2_add_link_scan reclen name ino rest <;> rfl

theorem add_link_go_eexist_iff (chunkSize reclen : Nat) (name : List Nat)
    (ino : Nat) (cs : List Chunk) :
    (ext2_add_link_go chunkSize reclen name ino cs = .error .eexist) ↔
      scan_first_hit_is_match reclen name cs.flatten = true := by
  induction cs with
  | nil =>
    simp [ext2_add_link_go, scan_first_hit_is_match]
  | cons c cs ih =>
    rw [List.flatten_cons, scan_first_hit_append reclen name ino c cs.flatten]
    simp only [ext2_add_link_go]
    cases h : ext2_add_link_scan reclen name ino c with
    | hitZeroRec => simp
    | hitExist => simp
    | inserted c2 => simp
    | next =>
      cases hgo : ext2_add_link_go chunkSize reclen name ino cs with
      | ok p =>
        obtain ⟨cs2, b⟩ := p
        rw [hgo] at ih
        simp only [hgo]
        simp only [reduceCtorEq, false_iff, Bool.not_eq_true] at ih ⊢
        exact ih
      | error e =>
        rw [hgo] at ih
        simp only [hgo]
        rw [← ih]

/-- Concrete directory for the C5 counterexample: one chunk holding
`"."`, `".."`, a 16-byte tombstone, and a live entry named `"a"`
(byte 97). -/
def c5Dir : List Chunk :=
  [[⟨2, 12, [46]⟩, ⟨2, 12, [46, 46]⟩, ⟨0, 16, []⟩, ⟨11, 984, [97]⟩]]

/-- The directory produced by adding a second `"a"`: the tombstone is
reused before the scan ever reaches the existing `"a"`. -/
def c5DirAfter : List Chunk :=
  [[⟨2, 12, [46]⟩, ⟨2, 12, [46, 46]⟩, ⟨12, 16, [97]⟩, ⟨11, 984, [97]⟩]]

/-- Claim C5, counterexample: the directory holds a live entry named
`"a"`, yet `ext2_add_link` with name `"a"` succeeds — the scan accepts
the tombstone that precedes the duplicate (dir.c:396 fires before the
match test ever sees the later record) — leaving two live `"a"`
entries instead of returning `-EEXIST`. -/
theorem ext2_add_link_duplicate_counterexample :
    (∃ de ∈ c5Dir.flatten, de.ino ≠ 0 ∧ de.name = [97]) ∧
    ext2_add_link 1024 c5Dir [97] 12 = .ok (c5DirAfter, false) ∧
    (c5DirAfter.flatten.filter
      (fun de => decide (de.ino ≠ 0) && decide (de.name = [97]))).length = 2 := by
  refine ⟨by decide, rfl, by decide⟩

/-- Claim C5, amended: `ext2_add_link` with name `n` returns `-EEXIST`
(leaving the directory unchanged — the error constructor carries no
modified directory, matching the `out_unlock` exit taken before any
mutation) exactly when, in offset order, a live record named `n` is
encountered strictly before any usable slot (tombstone with room, or
live record with enough slack) and before any zero-length record. If a
usable slot precedes the duplicate, the call succeeds and inserts a
second entry with the same name. -/
theorem ext2_add_link_eexist_iff_match_first (chunkSize : Nat)
    (dir : List Chunk) (name : List Nat) (ino : Nat) :
    ext2_add_link chunkSize dir name ino = .error .eexist ↔
      scan_first_hit_is_match (EXT2_DIR_REC_LEN name.length) name
        dir.flatten = true :=
  add_link_go_eexist_iff chunkSize (EXT2_DIR_REC_LEN name.length) name ino dir

/-! ## Claim C4 -/

theorem getD_set_ne (l : List α) (i j : Nat) (a d : α) (h : i ≠ j) :
    (l.set i a).getD j d = l.getD j d := by
  rw [List.getD_eq_getD_get?, List.getD_eq_getD_get?, List.get?_eq_getElem?,
      List.get?_eq_getElem?, List.getElem?_set_ne h]

theorem getD_set_self (l : List α) (i : Nat) (a d : α) (h : i < l.length) :
    (l.set i a).getD i d = a := by
  rw [List.getD_eq_getD_get?, List.get?_eq_getElem?,
      List.getElem?_set_eq_of_lt a h]
  rfl

theorem ext2_clear_run_length (cnt : Nat) :
    ∀ (bm : Bitmap) (bit : Nat), ((ext2_clear_run bm bit cnt).1).length = bm.length := by
  induction cnt with
  | zero => intro bm bit; rfl
  | succ k ih =>
    intro bm bit
    simp only [ext2_clear_run]
    rw [ih, List.length_set]

theorem ext2_clear_run_getD_lt_start (cnt : Nat) :
    ∀ (bm : Bitmap) (bit i : Nat) (d : Bool), i < bit →
      ((ext2_clear_run bm bit cnt).1).getD i d = bm.getD i d := by
  induction cnt with
  | zero => intro bm bit i d _; rfl
  | succ k ih =>
    intro bm bit i d h
    simp only [ext2_clear_run]
    rw [ih _ _ _ _ (by omega), getD_set_ne _ _ _ _ _ (by omega)]

theorem ext2_clear_run_getD_cleared (cnt : Nat) :
    ∀ (bm : Bitmap) (bit j : Nat), j < cnt → bit + cnt ≤ bm.length →
      ((ext2_clear_run bm bit cnt).1).getD (bit + j) false = false := by
  induction cnt with
  | zero => intro bm bit j h _; omega
  | succ k ih =>
    intro bm bit j hj hlen
    simp only [ext2_clear_run]
    match j with
    | 0 =>
      rw [Nat.add_zero, ext2_clear_run_getD_lt_start k _ _ _ _ (by omega)]
      exact getD_set_self bm bit false false (by omega)
    | Nat.succ j2 =>
      have h2 := ih (bm.set bit false) (bit + 1) j2 (by omega)
        (by rw [List.length_set]; omega)
      rw [show bit + (j2 + 1) = bit + 1 + j2 by omega]
      exact h2

theorem ext2_clear_run_freed (cnt : Nat) :
    ∀ (bm : Bitmap) (bit : Nat),
      (ext2_clear_run bm bit cnt).2 =
        (List.range cnt).countP (fun j => bm.getD (bit + j) false) := by
  induction cnt with
  | zero => intro bm bit; rfl
  | succ k ih =>
    intro bm bit
    simp only [ext2_clear_run]
    rw [ih (bm.set bit false) (bit + 1), List.range_succ_eq_map,
        List.countP_cons, List.countP_map]
    have heq : ∀ j : Nat,
        (bm.set bit false).getD (bit + 1 + j) false = bm.getD (bit + (j + 1)) false := by
      intro j
      rw [getD_set_ne _ _ _ _ _ (by omega)]
      congr 1
      omega
    have hfun : ((fun j => (bm.set bit false).getD (bit + 1 + j) false) :
        Nat → Bool) = fun j => bm.getD (bit + (j + 1)) false := by
      funext j
      exact heq j
    simp only [Function.comp_def, Nat.succ_eq_add_one, hfun, Nat.add_zero]
    omega

/-- The block bitmap of the C4 state's single group: metadata blocks
0-5 and data blocks 6-7 allocated, the rest free. -/
def c4Bitmap : Bitmap :=
  [true, true, true, true, true, true, true, true,
   false, false, false, false, false, false, false, false]

/-- The bitmap after freeing blocks 6-7. -/
def c4BitmapAfter : Bitmap :=
  [true, true, true, true, true, true, false, false,
   false, false, false, false, false, false, false, false]

/-- Concrete state for the C4 counterexample: `first_data_block = 0`
(as on a 4096-byte-block filesystem), superblock in block 1, one group
whose metadata occupies blocks 3-5. -/
def c4S : BallocState :=
  ⟨16, 0, 16, 1, 1, 4096, [(⟨3, 4, 5, 2⟩, c4Bitmap)], 10⟩

/-- Claim C4, counterexample: the run consisting of block 0 alone
satisfies every condition of the claim — `start ≥ first_data_block`
(0 ≥ 0), `end < blocks_count`, the superblock block 1 is not in the
run, and the run misses the group's bitmaps and inode table — yet
`ext2_free_blocks` rejects it unchanged, because the code requires
`start_blk > s_first_data_block` (balloc.c:158 tests `<=`). -/
theorem ext2_free_blocks_fdb_counterexample :
    (c4S.firstDataBlock ≤ 0 ∧ 0 + 1 - 1 < c4S.blocksCount ∧
     ¬(0 ≤ c4S.sbBlock ∧ c4S.sbBlock ≤ 0 + 1 - 1) ∧
     ¬(0 ≤ (3 : Nat) ∧ 3 ≤ 0 + 1 - 1) ∧
     ¬(0 ≤ (4 : Nat) ∧ 4 ≤ 0 + 1 - 1) ∧
     ¬((0 : Nat) ≤ 5 + c4S.itbPerGroup - 1 ∧ 5 ≤ 0 + 1 - 1)) ∧
    ext2_free_blocks c4S 0 1 = (c4S, none) := by
  exact ⟨by decide, by decide⟩

theorem ext2_in_range_eq_true_iff (x f l : Nat) :
    ext2_in_range x f l = true ↔ (f ≤ x ∧ x ≤ f + l - 1) := by
  simp [ext2_in_range]

theorem ext2_in_range_eq_false_iff (x f l : Nat) :
    ext2_in_range x f l = false ↔ ¬(f ≤ x ∧ x ≤ f + l - 1) := by
  rw [Bool.eq_false_iff]
  exact not_congr (ext2_in_range_eq_true_iff x f l)

theorem ext2_data_blocks_valid_iff (s : BallocState) (b c : Nat) :
    ext2_data_blocks_valid s b c = true ↔
      (¬(b + c - 1 < b) ∧ s.firstDataBlock < b ∧ b + c - 1 < s.blocksCount ∧
       ¬(b ≤ s.sbBlock ∧ s.sbBlock ≤ b + c - 1)) := by
  simp only [ext2_data_blocks_valid, Bool.and_eq_true, decide_eq_true_eq]
  constructor
  · rintro ⟨⟨⟨h1, h2⟩, h3⟩, h4⟩
    exact ⟨h1, by omega, by omega, h4⟩
  · rintro ⟨h1, h2, h3, h4⟩
    exact ⟨⟨⟨h1, by omega⟩, by omega⟩, h4⟩

theorem ext2_data_blocks_valid_bg_iff (desc : GroupDesc) (s : BallocState)
    (b c : Nat) :
    ext2_data_blocks_valid_bg desc s b c = true ↔
      (¬(b + c - 1 < b) ∧
       ¬(b ≤ desc.bgBlockBitmap ∧ desc.bgBlockBitmap ≤ b + c - 1) ∧
       ¬(b ≤ desc.bgInodeBitmap ∧ desc.bgInodeBitmap ≤ b + c - 1) ∧
       ¬(desc.bgInodeTable ≤ b ∧ b ≤ desc.bgInodeTable + s.itbPerGroup - 1) ∧
       ¬(desc.bgInodeTable ≤ b + c - 1 ∧
         b + c - 1 ≤ desc.bgInodeTable + s.itbPerGroup - 1)) := by
  simp only [ext2_data_blocks_valid_bg, Bool.and_eq_true, Bool.not_eq_true',
             decide_eq_true_eq, ext2_in_range_eq_false_iff]
  tauto

/-- Claim C4, amended: on a well-formed group (contiguous metadata
layout `inode_bitmap = block_bitmap + 1`, `inode_table = block_bitmap + 2`,
a bitmap that passes validation, and a run of at least one block lying
within its owning group), `ext2_free_blocks` frees the run
`block .. block+count-1` — clearing its bits and raising the group
descriptor's free count and the global free-blocks counter by the
number of bits actually cleared — exactly when `start` is strictly
greater than `first_data_block` (the claim said `≥`), `end` is below
`blocks_count`, the run does not include the superblock block, and the
run does not overlap the owning group's block bitmap, inode bitmap or
inode table; for any run violating one of these conditions it reports
the error and returns with the bitmap, the descriptor's free count and
the global counter unchanged. -/
theorem ext2_free_blocks_validity (s : BallocState) (block count : Nat)
    (desc : GroupDesc) (bm : Bitmap)
    (hdesc : ext2_get_group_desc s
      ((block - s.firstDataBlock) / s.blocksPerGroup) = some (desc, bm))
    (hib : desc.bgInodeBitmap = desc.bgBlockBitmap + 1)
    (hit : desc.bgInodeTable = desc.bgBlockBitmap + 2)
    (hvalid : ext2_block_bitmap_valid s desc
      ((block - s.firstDataBlock) / s.blocksPerGroup) bm = true)
    (hcnt : 1 ≤ count)
    (hitb : 1 ≤ s.itbPerGroup)
    (hrun : (block - s.firstDataBlock) % s.blocksPerGroup + count ≤ s.blocksPerGroup)
    (hlen : s.blocksPerGroup ≤ bm.length) :
    ((s.firstDataBlock < block ∧ block + count - 1 < s.blocksCount ∧
      ¬(block ≤ s.sbBlock ∧ s.sbBlock ≤ block + count - 1) ∧
      ¬(block ≤ desc.bgBlockBitmap ∧ desc.bgBlockBitmap ≤ block + count - 1) ∧
      ¬(block ≤ desc.bgInodeBitmap ∧ desc.bgInodeBitmap ≤ block + count - 1) ∧
      ¬(block ≤ desc.bgInodeTable + s.itbPerGroup - 1 ∧
        desc.bgInodeTable ≤ block + count - 1)) →
      ∃ bm2 freed,
        ext2_clear_run bm ((block - s.firstDataBlock) % s.blocksPerGroup) count =
          (bm2, freed) ∧
        ext2_free_blocks s block count =
          (⟨s.blocksCount, s.firstDataBlock, s.blocksPerGroup, s.itbPerGroup,
            s.sbBlock, s.blockSize,
            s.groups.set ((block - s.firstDataBlock) / s.blocksPerGroup)
              (⟨desc.bgBlockBitmap, desc.bgInodeBitmap, desc.bgInodeTable,
                group_update_free_blocks desc.bgFreeBlocksCount (freed : Int)⟩,
               bm2),
            s.freeBlocksCounter + (freed : Int)⟩, some freed) ∧
        (∀ j, j < count →
          bm2.getD ((block - s.firstDataBlock) % s.blocksPerGroup + j) false = false) ∧
        freed = (List.range count).countP
          (fun j => bm.getD ((block - s.firstDataBlock) % s.blocksPerGroup + j) false)) ∧
    (¬(s.firstDataBlock < block ∧ block + count - 1 < s.blocksCount ∧
       ¬(block ≤ s.sbBlock ∧ s.sbBlock ≤ block + count - 1) ∧
       ¬(block ≤ desc.bgBlockBitmap ∧ desc.bgBlockBitmap ≤ block + count - 1) ∧
       ¬(block ≤ desc.bgInodeBitmap ∧ desc.bgInodeBitmap ≤ block + count - 1) ∧
       ¬(block ≤ desc.bgInodeTable + s.itbPerGroup - 1 ∧
         desc.bgInodeTable ≤ block + count - 1)) →
      ext2_free_blocks s block count = (s, none)) := by
  have hread : ext2_read_block_bitmap s
      ((block - s.firstDataBlock) / s.blocksPerGroup) = some bm := by
    unfold ext2_read_block_bitmap
    rw [hdesc]
    exact if_pos hvalid
  constructor
  · rintro ⟨hA1, hA2, hA3, hA4, hA5, hA6⟩
    have hdv : ext2_data_blocks_valid s block count = true :=
      (ext2_data_blocks_valid_iff s block count).mpr
        ⟨by omega, hA1, hA2, hA3⟩
    have hbg : ext2_data_blocks_valid_bg desc s block count = true :=
      (ext2_data_blocks_valid_bg_iff desc s block count).mpr
        ⟨by omega, hA4, hA5,
         fun hx => hA6 ⟨hx.2, by omega⟩,
         fun hx => hA6 ⟨by omega, hx.1⟩⟩
    have hng : ¬(ext2_data_blocks_valid s block count = false) := by
      rw [hdv]
      decide
    have hng2 : ¬(ext2_data_blocks_valid_bg desc s block count = false) := by
      rw [hbg]
      decide
    refine ⟨(ext2_clear_run bm ((block - s.firstDataBlock) % s.blocksPerGroup)
              count).1,
            (ext2_clear_run bm ((block - s.firstDataBlock) % s.blocksPerGroup)
              count).2,
            rfl, ?_, ?_, ?_⟩
    · unfold ext2_free_blocks
      rw [if_neg hng]
      simp only [hread, hdesc]
      rw [if_neg hng2]
    · intro j hj
      exact ext2_clear_run_getD_cleared count bm _ j hj (le_trans hrun hlen)
    · exact ext2_clear_run_freed count bm _
  · intro hA
    by_cases hv : ext2_data_blocks_valid s block count = true
    · obtain ⟨hz1, hA1, hA2, hA3⟩ := (ext2_data_blocks_valid_iff s block count).mp hv
      have hD : ¬(¬(block ≤ desc.bgBlockBitmap ∧
              desc.bgBlockBitmap ≤ block + count - 1) ∧
            ¬(block ≤ desc.bgInodeBitmap ∧
              desc.bgInodeBitmap ≤ block + count - 1) ∧
            ¬(block ≤ desc.bgInodeTable + s.itbPerGroup - 1 ∧
              desc.bgInodeTable ≤ block + count - 1)) :=
        fun hc => hA ⟨hA1, hA2, hA3, hc.1, hc.2.1, hc.2.2⟩
      have hbg : ext2_data_blocks_valid_bg desc s block count = false := by
        rw [Bool.eq_false_iff]
        intro hbt
        obtain ⟨hz0, h4, h5, h6, h7⟩ :=
          (ext2_data_blocks_valid_bg_iff desc s block count).mp hbt
        apply hD
        refine ⟨h4, h5, ?_⟩
        intro ho
        have hb1 : block < desc.bgInodeTable := by
          by_contra hb
          exact h6 ⟨by omega, ho.1⟩
        have hb2 : desc.bgInodeTable + s.itbPerGroup - 1 < block + count - 1 := by
          by_contra hb
          exact h7 ⟨ho.2, by omega⟩
        exact h5 ⟨by omega, by omega⟩
      have hng : ¬(ext2_data_blocks_valid s block count = false) := by
        rw [hv]
        decide
      unfold ext2_free_blocks
      rw [if_neg hng]
      simp only [hread, hdesc]
      rw [if_pos hbg]
    · have hdv : ext2_data_blocks_valid s block count = false :=
        Bool.eq_false_iff.mpr hv
      unfold ext2_free_blocks
      rw [if_pos hdv]

/-- Witness for the amended C4 theorem: freeing the allocated data
blocks 6-7 of the concrete state clears both bits and raises the
descriptor's free count and the global counter by 2. -/
theorem ext2_free_blocks_validity_witness :
    ext2_free_blocks c4S 6 2 =
      (⟨16, 0, 16, 1, 1, 4096,
        c4S.groups.set 0
          (⟨3, 4, 5, group_update_free_blocks 2 ((2 : Nat) : Int)⟩,
           c4BitmapAfter),
        10 + ((2 : Nat) : Int)⟩, some 2) := by
  have h := (ext2_free_blocks_validity c4S 6 2 ⟨3, 4, 5, 2⟩ c4Bitmap
    (by decide) (by decide) (by decide) (by decide) (by decide) (by decide)
    (by decide) (by decide)).1
    ⟨by decide, by decide, by decide, by decide, by decide, by decide⟩
  obtain ⟨bm2, freed, hcr, hres, _, _⟩ := h
  have hconc : ext2_clear_run c4Bitmap
      ((6 - c4S.firstDataBlock) % c4S.blocksPerGroup) 2 =
      (c4BitmapAfter, 2) := by decide
  rw [hconc] at hcr
  have hbm : c4BitmapAfter = bm2 := congrArg Prod.fst hcr
  have hfr : (2 : Nat) = freed := congrArg Prod.snd hcr
  rw [← hbm, ← hfr] at hres
  exact hres

/-! ## Claim C3 -/

theorem getD_true_eq_false_lt (bm : Bitmap) (i : Nat)
    (h : bm.getD i true = false) : i < bm.length := by
  by_contra hn
  rw [List.getD_eq_default _ _ (by omega)] at h
  exact absurd h (by decide)

theorem findNextZeroGo_ge (bm : Bitmap) (fuel : Nat) :
    ∀ off, off ≤ findNextZeroGo bm off fuel := by
  induction fuel with
  | zero => intro off; exact Nat.le_refl off
  | succ k ih =>
    intro off
    rw [findNextZeroGo]
    by_cases h : bm.getD off true = false
    · rw [if_pos h]
    · rw [if_neg h]
      exact le_trans (Nat.le_succ off) (ih (off + 1))

theorem findNextZeroGo_zero (bm : Bitmap) (fuel : Nat) :
    ∀ off, findNextZeroGo bm off fuel < off + fuel →
      bm.getD (findNextZeroGo bm off fuel) true = false := by
  induction fuel with
  | zero =>
    intro off h
    rw [findNextZeroGo] at h
    exact absurd h (by omega)
  | succ k ih =>
    intro off h
    rw [findNextZeroGo] at h ⊢
    by_cases hb : bm.getD off true = false
    · rw [if_pos hb]
      exact hb
    · rw [if_neg hb] at h ⊢
      exact ih (off + 1) (by omega)

theorem findNextZeroGo_found (bm : Bitmap) (fuel : Nat) :
    ∀ off i, off ≤ i → i < off + fuel → bm.getD i true = false →
      findNextZeroGo bm off fuel ≤ i := by
  induction fuel with
  | zero => intro off i h1 h2 _; omega
  | succ k ih =>
    intro off i h1 h2 hz
    rw [findNextZeroGo]
    by_cases hb : bm.getD off true = false
    · rw [if_pos hb]
      exact h1
    · rw [if_neg hb]
      have hne : off ≠ i := fun he => hb (he ▸ hz)
      exact ih (off + 1) i (by omega) (by omega) hz

theorem find_next_zero_bit_le_found (bm : Bitmap) (size off i : Nat)
    (h1 : off ≤ i) (h2 : i < size) (hz : bm.getD i true = false) :
    find_next_zero_bit_le bm size off < size := by
  unfold find_next_zero_bit_le
  rw [if_pos (by omega)]
  have := findNextZeroGo_found bm (size - off) off i h1 (by omega) hz
  omega

theorem find_next_zero_bit_le_zero (bm : Bitmap) (size off : Nat)
    (h : find_next_zero_bit_le bm size off < size) :
    bm.getD (find_next_zero_bit_le bm size off) true = false := by
  unfold find_next_zero_bit_le at h ⊢
  by_cases ho : off < size
  · rw [if_pos ho] at h ⊢
    exact findNextZeroGo_zero bm (size - off) off (by omega)
  · rw [if_neg ho] at h
    omega

theorem extendRunGo_ge (nblocks first : Nat) (fuel : Nat) :
    ∀ bm num, num ≤ (extendRunGo bm nblocks first num fuel).1 := by
  induction fuel with
  | zero => intro bm num; exact Nat.le_refl num
  | succ k ih =>
    intro bm num
    rw [extendRunGo]
    by_cases h : first + num < nblocks ∧ bm.getD (first + num) true = false
    · rw [if_pos h]
      exact le_trans (by omega) (ih _ (num + 1))
    · rw [if_neg h]

theorem extendRunGo_le (nblocks first : Nat) (fuel : Nat) :
    ∀ bm num, (extendRunGo bm nblocks first num fuel).1 ≤ num + fuel := by
  induction fuel with
  | zero => intro bm num; exact Nat.le_refl num
  | succ k ih =>
    intro bm num
    rw [extendRunGo]
    by_cases h : first + num < nblocks ∧ bm.getD (first + num) true = false
    · rw [if_pos h]
      exact le_trans (ih _ (num + 1)) (by omega)
    · rw [if_neg h]
      omega

theorem extendRunGo_pos (bm : Bitmap) (nblocks first fuel : Nat)
    (hf : 1 ≤ fuel) (hlt : first < nblocks)
    (hz : bm.getD first true = false) :
    1 ≤ (extendRunGo bm nblocks first 0 fuel).1 := by
  obtain ⟨k, rfl⟩ : ∃ k, fuel = k + 1 := ⟨fuel - 1, by omega⟩
  rw [extendRunGo]
  rw [if_pos ⟨by omega, by simpa using hz⟩]
  exact extendRunGo_ge nblocks first k _ (0 + 1)

theorem extendRunGo_sets (nblocks first : Nat) (fuel : Nat) :
    ∀ bm num, (∀ j, j < num → bm.getD (first + j) true = true) →
      ∀ j, j < (extendRunGo bm nblocks first num fuel).1 →
        ((extendRunGo bm nblocks first num fuel).2).getD (first + j) true = true := by
  induction fuel with
  | zero => intro bm num hpre j hj; exact hpre j hj
  | succ k ih =>
    intro bm num hpre j hj
    rw [extendRunGo] at hj ⊢
    by_cases h : first + num < nblocks ∧ bm.getD (first + num) true = false
    · rw [if_pos h] at hj ⊢
      refine ih _ (num + 1) ?_ j hj
      intro j2 hj2
      by_cases hje : j2 = num
      · subst hje
        exact getD_set_self bm (first + j2) true true
          (getD_true_eq_false_lt bm (first + j2) h.2)
      · rw [getD_set_ne _ _ _ _ _ (by omega)]
        exact hpre j2 (by omega)
    · rw [if_neg h] at hj ⊢
      exact hpre j hj

/-- The group-probe condition of the C3 claim: the group's descriptor
records a non-zero free-blocks count and its bitmap has a clear bit
within the group's block range. -/
def groupHasFree (s : BallocState) (g : Nat) : Prop :=
  ∃ d bm, s.groups.get? g = some (d, bm) ∧ d.bgFreeBlocksCount ≠ 0 ∧
    ∃ off, off < groupNBlocks s g ∧ bm.getD off true = false

theorem ext2_allocate_in_bg_ne_none (s : BallocState) (g : Nat) (bm : Bitmap)
    (req : Nat) (hreq : 1 ≤ req)
    (hzero : ∃ off, off < groupNBlocks s g ∧ bm.getD off true = false) :
    ext2_allocate_in_bg s g bm req ≠ none := by
  obtain ⟨off, hofflt, hoffz⟩ := hzero
  have hfind : find_next_zero_bit_le bm (groupNBlocks s g) 0 < groupNBlocks s g :=
    find_next_zero_bit_le_found bm (groupNBlocks s g) 0 off (by omega) hofflt hoffz
  have hfz : bm.getD (find_next_zero_bit_le bm (groupNBlocks s g) 0) true = false :=
    find_next_zero_bit_le_zero bm (groupNBlocks s g) 0 hfind
  unfold ext2_allocate_in_bg ext2_extend_run
  rw [if_neg (by omega)]
  have hpos := extendRunGo_pos bm (groupNBlocks s g)
    (find_next_zero_bit_le bm (groupNBlocks s g) 0) (req - 0) (by omega) hfind hfz
  rw [if_neg (by omega)]
  exact fun h => Option.noConfusion h

theorem ext2_new_blocks_loop_enospc (s : BallocState) (req : Nat)
    (hreq : 1 ≤ req) :
    ∀ fuel group,
      ext2_new_blocks_loop s req group fuel = .error .enospc →
      ∀ j, j < fuel → ¬ groupHasFree s ((group + j) % groupsCount s) := by
  intro fuel
  induction fuel with
  | zero => intro group _ j hj; omega
  | succ k ih =>
    intro group h j hj
    rw [ext2_new_blocks_loop] at h
    cases hg : ext2_get_group_desc s group with
    | none =>
      simp [hg] at h
    | some pr =>
      obtain ⟨gdp, bm0⟩ := pr
      simp only [hg] at h
      have hg2 : s.groups.get? group = some (gdp, bm0) := hg
      have hglt : group < groupsCount s := (List.get?_eq_some.mp hg2).1
      have hgmod : group % groupsCount s = group := Nat.mod_eq_of_lt hglt
      by_cases hfree : gdp.bgFreeBlocksCount = 0
      · rw [if_pos hfree] at h
        match j with
        | 0 =>
          intro hhas
          obtain ⟨d, bm, hd, hdf, _⟩ := hhas
          rw [Nat.add_zero, hgmod] at hd
          rw [hg2] at hd
          obtain ⟨rfl, rfl⟩ : d = gdp ∧ bm = bm0 := by
            have h1 := Option.some.inj hd
            exact ⟨(congrArg Prod.fst h1).symm, (congrArg Prod.snd h1).symm⟩
          exact hdf hfree
        | Nat.succ j2 =>
          have := ih ((group + 1) % groupsCount s) h j2 (by omega)
          rw [Nat.mod_add_mod] at this
          rw [show group + 1 + j2 = group + (j2 + 1) by omega] at this
          exact this
      · rw [if_neg hfree] at h
        cases hrb : ext2_read_block_bitmap s group with
        | none =>
          simp [hrb] at h
        | some bm =>
          simp only [hrb] at h
          have hbm : bm = bm0 ∧ ext2_block_bitmap_valid s gdp group bm0 = true := by
            simp only [ext2_read_block_bitmap, hg] at hrb
            by_cases hv : ext2_block_bitmap_valid s gdp group bm0 = true
            · rw [if_pos hv] at hrb
              exact ⟨(Option.some.inj hrb).symm, hv⟩
            · rw [if_neg hv] at hrb
              exact absurd hrb (by simp)
          cases ha : ext2_allocate_in_bg s group bm req with
          | none =>
            simp only [ha] at h
            match j with
            | 0 =>
              intro hhas
              obtain ⟨d, bm2, hd, hdf, hoff⟩ := hhas
              rw [Nat.add_zero, hgmod] at hd
              rw [hg2] at hd
              obtain ⟨rfl, rfl⟩ : d = gdp ∧ bm2 = bm0 := by
                have h1 := Option.some.inj hd
                exact ⟨(congrArg Prod.fst h1).symm, (congrArg Prod.snd h1).symm⟩
              rw [Nat.add_zero, hgmod] at hoff
              rw [← hbm.1] at hoff
              exact ext2_allocate_in_bg_ne_none s group bm req hreq hoff ha
            | Nat.succ j2 =>
              have := ih ((group + 1) % groupsCount s) h j2 (by omega)
              rw [Nat.mod_add_mod] at this
              rw [show group + 1 + j2 = group + (j2 + 1) by omega] at this
              exact this
          | some tr =>
            obtain ⟨grpAllocBlk, count, bm2⟩ := tr
            simp [ha] at h

theorem ext2_new_blocks_loop_ok (s : BallocState) (req : Nat) :
    ∀ fuel group blk cnt s2,
      ext2_new_blocks_loop s req group fuel = .ok (blk, cnt, s2) →
      ∃ g d bm, g < groupsCount s ∧ s.groups.get? g = some (d, bm) ∧
        d.bgFreeBlocksCount ≠ 0 ∧
        ∃ off, off < groupNBlocks s g ∧ bm.getD off true = false ∧
          blk = off + ext2_group_first_block_no s g ∧
          1 ≤ cnt ∧ cnt ≤ req ∧
          s2.freeBlocksCounter = s.freeBlocksCounter - (cnt : Int) ∧
          ∃ bm2, s2.groups = s.groups.set g
            (⟨d.bgBlockBitmap, d.bgInodeBitmap, d.bgInodeTable,
              group_update_free_blocks d.bgFreeBlocksCount (-(cnt : Int))⟩, bm2) ∧
            ∀ j, j < cnt → bm2.getD (off + j) true = true := by
  intro fuel
  induction fuel with
  | zero => intro group blk cnt s2 h; simp [ext2_new_blocks_loop] at h
  | succ k ih =>
    intro group blk cnt s2 h
    rw [ext2_new_blocks_loop] at h
    cases hg : ext2_get_group_desc s group with
    | none =>
      simp [hg] at h
    | some pr =>
      obtain ⟨gdp, bm0⟩ := pr
      simp only [hg] at h
      have hg2 : s.groups.get? group = some (gdp, bm0) := hg
      have hglt : group < groupsCount s := (List.get?_eq_some.mp hg2).1
      by_cases hfree : gdp.bgFreeBlocksCount = 0
      · rw [if_pos hfree] at h
        exact ih _ blk cnt s2 h
      · rw [if_neg hfree] at h
        cases hrb : ext2_read_block_bitmap s group with
        | none =>
          simp [hrb] at h
        | some bm =>
          simp only [hrb] at h
          have hbm : bm = bm0 := by
            simp only [ext2_read_block_bitmap, hg] at hrb
            by_cases hv : ext2_block_bitmap_valid s gdp group bm0 = true
            · rw [if_pos hv] at hrb
              exact (Option.some.inj hrb).symm
            · rw [if_neg hv] at hrb
              exact absurd hrb (by simp)
          cases ha : ext2_allocate_in_bg s group bm req with
          | none =>
            simp only [ha] at h
            exact ih _ blk cnt s2 h
          | some tr =>
            obtain ⟨grpAllocBlk, num, bm2⟩ := tr
            simp only [ha] at h
            simp only [Except.ok.injEq, Prod.mk.injEq] at h
            obtain ⟨hblk, hcnt2, hs2⟩ := h
            have halloc := ha
            unfold ext2_allocate_in_bg ext2_extend_run at halloc
            by_cases hfind : find_next_zero_bit_le bm (groupNBlocks s group) 0 ≥
                groupNBlocks s group
            · rw [if_pos hfind] at halloc
              exact absurd halloc (by simp)
            · rw [if_neg hfind] at halloc
              by_cases hnum : (extendRunGo bm (groupNBlocks s group)
                  (find_next_zero_bit_le bm (groupNBlocks s group) 0) 0
                  (req - 0)).1 = 0
              · rw [if_pos hnum] at halloc
                exact absurd halloc (by simp)
              · rw [if_neg hnum] at halloc
                obtain ⟨hoff2, hnum2, hbm2⟩ :
                    find_next_zero_bit_le bm (groupNBlocks s group) 0 = grpAllocBlk ∧
                    (extendRunGo bm (groupNBlocks s group)
                      (find_next_zero_bit_le bm (groupNBlocks s group) 0) 0
                      (req - 0)).1 = num ∧
                    (extendRunGo bm (groupNBlocks s group)
                      (find_next_zero_bit_le bm (groupNBlocks s group) 0) 0
                      (req - 0)).2 = bm2 := by
                  have h1 := Option.some.inj halloc
                  refine ⟨congrArg (fun t => t.1) h1, ?_, ?_⟩
                  · exact congrArg (fun t => t.2.1) h1
                  · exact congrArg (fun t => t.2.2) h1
                refine ⟨group, gdp, bm0, hglt, hg2, hfree, grpAllocBlk,
                  by omega, ?_, ?_, ?_, ?_, ?_, bm2, ?_, ?_⟩
                · rw [← hbm, ← hoff2]
                  exact find_next_zero_bit_le_zero bm (groupNBlocks s group) 0
                    (by omega)
                · omega
                · rw [← hcnt2, ← hnum2]
                  omega
                · rw [← hcnt2, ← hnum2]
                  have := extendRunGo_le (groupNBlocks s group)
                    (find_next_zero_bit_le bm (groupNBlocks s group) 0)
                    (req - 0) bm 0
                  omega
                · rw [← hs2, ← hcnt2]
                · rw [← hs2, ← hcnt2]
                · intro j hj
                  rw [← hbm2, ← hoff2]
                  refine extendRunGo_sets (groupNBlocks s group) _ (req - 0) bm 0
                    (fun j2 hj2 => absurd hj2 (Nat.not_lt_zero j2)) j ?_
                  omega

/-- Bitmap of a fully fresh group on a 4096-byte-block filesystem:
metadata blocks 0-5 allocated (superblock backup, descriptor backup,
block bitmap, inode bitmap, two inode-table blocks), the other 32762
blocks free. -/
def c3FreshBitmap : Bitmap :=
  List.replicate 6 true ++ List.replicate 32762 false

/-- Bitmap of a nearly full group: metadata blocks 0-5 allocated,
blocks 6-17 free, the remaining 32750 allocated. -/
def c3TailBitmap : Bitmap :=
  List.replicate 6 true ++ (List.replicate 12 false ++ List.replicate 32750 true)

/-- A fully consistent three-group state whose free-blocks total is
exactly 65536: each descriptor's free count equals the number of zero
bits of its bitmap, and the global counter equals their sum. -/
def c3S : BallocState :=
  ⟨98304, 0, 32768, 2, 1, 4096,
   [(⟨2, 3, 4, 32762⟩, c3FreshBitmap),
    (⟨32770, 32771, 32772, 32762⟩, c3FreshBitmap),
    (⟨65538, 65539, 65540, 12⟩, c3TailBitmap)], 65536⟩

/-- Claim C3, counterexample: in a state whose global free-blocks
counter (65536) equals the sum of the descriptors' free counts, with
group 0 advertising 32762 free blocks and its bitmap holding a zero
bit in range, `ext2_new_blocks` nevertheless fails with `-ENOSPC`
before probing a single group: balloc.c:355 reads the positive percpu
counter into a `__u16` local, and 65536 truncates to 0. -/
theorem ext2_new_blocks_enospc_counterexample :
    (∃ d bm, c3S.groups.get? 0 = some (d, bm) ∧ d.bgFreeBlocksCount ≠ 0 ∧
      6 < groupNBlocks c3S 0 ∧ bm.getD 6 true = false) ∧
    (c3S.groups.map (fun p => (p.1.bgFreeBlocksCount : Int))).sum =
      c3S.freeBlocksCounter ∧
    ext2_new_blocks c3S 0 1 = .error .enospc := by
  refine ⟨⟨⟨2, 3, 4, 32762⟩, c3FreshBitmap, rfl, by decide, by decide, by decide⟩,
          by decide, rfl⟩

/-- Claim C3, amended: provided the low 16 bits of the (positive)
global free-blocks counter are non-zero — the code reads the counter
through a `__u16` local before any traversal, so a counter that is a
positive multiple of 65536 short-circuits to `-ENOSPC` — and the
request is for at least one block, `ext2_new_blocks` does not fail
with `-ENOSPC` whenever some group's descriptor records a non-zero
free-blocks count and that group's bitmap contains a zero bit within
the group's block range; and when it succeeds it returns the
filesystem-wide number of the first allocated block (a previously
clear bit of some group, now set along with the rest of the achieved
run) and reports the achieved run length, between 1 and the request,
through the in/out count parameter, decrementing the counters by it. -/
theorem ext2_new_blocks_enospc_only_after_scan (s : BallocState)
    (start req : Nat) (hreq : 1 ≤ req)
    (hcounter : read_positive_u16 s.freeBlocksCounter ≠ 0)
    (g : Nat) (hg : g < groupsCount s) (hfree : groupHasFree s g) :
    ext2_new_blocks s start req ≠ .error .enospc ∧
    (∀ blk cnt s2, ext2_new_blocks s start req = .ok (blk, cnt, s2) →
      ∃ g2 d bm, g2 < groupsCount s ∧ s.groups.get? g2 = some (d, bm) ∧
        d.bgFreeBlocksCount ≠ 0 ∧
        ∃ off, off < groupNBlocks s g2 ∧ bm.getD off true = false ∧
          blk = off + ext2_group_first_block_no s g2 ∧
          1 ≤ cnt ∧ cnt ≤ req ∧
          s2.freeBlocksCounter = s.freeBlocksCounter - (cnt : Int) ∧
          ∃ bm2, s2.groups = s.groups.set g2
            (⟨d.bgBlockBitmap, d.bgInodeBitmap, d.bgInodeTable,
              group_update_free_blocks d.bgFreeBlocksCount (-(cnt : Int))⟩, bm2) ∧
            ∀ j, j < cnt → bm2.getD (off + j) true = true) := by
  have hn : 0 < groupsCount s := by omega
  constructor
  · intro henospc
    unfold ext2_new_blocks at henospc
    rw [if_neg hcounter] at henospc
    have hall := ext2_new_blocks_loop_enospc s req hreq (groupsCount s) start
      henospc ((g + groupsCount s - start % groupsCount s) % groupsCount s)
      (Nat.mod_lt _ hn)
    apply hall
    have hje : (start + (g + groupsCount s - start % groupsCount s) %
        groupsCount s) % groupsCount s = g := by
      have hsm : start % groupsCount s < groupsCount s := Nat.mod_lt _ hn
      rw [Nat.add_mod_mod]
      have hdm := Nat.div_add_mod start (groupsCount s)
      have h3 : start + (g + groupsCount s - start % groupsCount s) =
          g + groupsCount s + groupsCount s * (start / groupsCount s) := by
        omega
      rw [h3, Nat.add_mul_mod_self_left, Nat.add_mod_right,
          Nat.mod_eq_of_lt hg]
    rw [hje]
    exact hfree
  · intro blk cnt s2 hok
    unfold ext2_new_blocks at hok
    rw [if_neg hcounter] at hok
    exact ext2_new_blocks_loop_ok s req (groupsCount s) start blk cnt s2 hok

/-- Witness for the amended C3 theorem on the one-group state used for
claim C1: the allocator cannot report `-ENOSPC` there. -/
theorem ext2_new_blocks_enospc_only_after_scan_witness :
    ext2_new_blocks c1State 0 1 ≠ .error .enospc :=
  (ext2_new_blocks_enospc_only_after_scan c1State 0 1 (by decide) (by decide)
    0 (by decide)
    ⟨⟨3, 4, 5, 2⟩, [true, true, true, true, true, true, false, false],
     rfl, by decide, 6, by decide, by decide⟩).1

/-! ## Claim C9 -/

/-- A parent directory whose single chunk is completely full: `"."`,
`".."` and four live filler entries, each with `rec_len` equal to its
canonical length, summing to the 1024-byte chunk — no tombstone and no
slack anywhere. -/
def c9FullParent : List Chunk :=
  [[⟨2, 12, [46]⟩, ⟨2, 12, [46, 46]⟩,
    ⟨11, 252, List.replicate 241 120⟩,
    ⟨12, 252, List.replicate 241 121⟩,
    ⟨13, 252, List.replicate 241 122⟩,
    ⟨14, 244, List.replicate 233 119⟩]]

/-- Initial state for the C9 counterexample: two free blocks, one free
inode, the full parent above. -/
def c9S0 : FsOpState := ⟨2, 1, c9FullParent, 3⟩

/-- State after `mkdir`: both free blocks consumed (one for the new
directory's chunk, one to extend the parent), the inode consumed, the
parent grown by a fresh chunk holding the entry. -/
def c9S1 : FsOpState :=
  ⟨0, 0, c9FullParent ++ [[⟨15, 1024, [112]⟩]], 4⟩

/-- The directory created by the C9 counterexample's mkdir. -/
def c9Child : ChildDir := ⟨15, [.chunks [ext2_make_empty 1024 15 2]], 1⟩

/-- State after `rmdir` and eviction: the child's block and inode come
back, but the block spent extending the parent directory does not —
`ext2_delete_entry` only tombstones the entry. -/
def c9S2 : FsOpState :=
  ⟨1, 1, c9FullParent ++ [[⟨0, 1024, [112]⟩]], 3⟩

set_option maxRecDepth 40000 in
/-- Claim C9, counterexample: starting from two free blocks and one
free inode, with a parent directory that has no room for the new
entry, `mkdir p; rmdir p` (with eviction) succeeds but leaves the
free-blocks counter one lower than before — the chunk appended to the
parent by `ext2_add_link` is never reclaimed, since `ext2_delete_entry`
merely tombstones the record. The free-inodes counter is restored. -/
theorem ext2_mkdir_rmdir_counters_counterexample :
    ext2_mkdir 1024 c9S0 [112] 15 2 = .ok (c9S1, c9Child, true) ∧
    ext2_rmdir_evict 1024 2048 c9S1 c9Child [112] = .ok c9S2 ∧
    c9S2.freeInodes = c9S0.freeInodes ∧
    c9S0.freeBlocks = 2 ∧ c9S2.freeBlocks = 1 := by
  exact ⟨rfl, rfl, rfl, rfl, rfl⟩

/-- Claim C9, amended: whenever `mkdir p` succeeds without extending
the parent directory (the add-entry scan found room in an existing
chunk) and the subsequent `rmdir p` (with eviction of `p`'s inode)
succeeds, the global free-blocks and free-inodes counters return to
their values before the mkdir. If the parent had to be extended, the
free-blocks counter ends one lower (see the counterexample); the
free-inodes counter is restored in either case. -/
theorem ext2_mkdir_rmdir_restores_counters (chunkSize maxInumber : Nat)
    (st st1 st2 : FsOpState) (child : ChildDir) (name : List Nat)
    (childIno parentIno : Nat)
    (hmk : ext2_mkdir chunkSize st name childIno parentIno =
      .ok (st1, child, false))
    (hrm : ext2_rmdir_evict chunkSize maxInumber st1 child name = .ok st2) :
    st2.freeBlocks = st.freeBlocks ∧ st2.freeInodes = st.freeInodes := by
  unfold ext2_mkdir at hmk
  by_cases h1 : st.freeInodes = 0
  · rw [if_pos h1] at hmk
    exact absurd hmk (by simp)
  · rw [if_neg h1] at hmk
    by_cases h2 : st.freeBlocks = 0
    · rw [if_pos h2] at hmk
      exact absurd hmk (by simp)
    · rw [if_neg h2] at hmk
      cases hal : ext2_add_link chunkSize st.parent name childIno with
      | error e =>
        simp only [hal] at hmk
        exact absurd hmk (by simp)
      | ok pr =>
        obtain ⟨parent2, appended⟩ := pr
        simp only [hal] at hmk
        by_cases h3 : appended = true ∧ st.freeBlocks - 1 = 0
        · rw [if_pos h3] at hmk
          exact absurd hmk (by simp)
        · rw [if_neg h3] at hmk
          simp only [Except.ok.injEq, Prod.mk.injEq] at hmk
          obtain ⟨hst1, hchild, happ⟩ := hmk
          subst happ
          unfold ext2_rmdir_evict at hrm
          by_cases h5 : ext2_empty_dir chunkSize maxInumber child.ino
              child.dir = false
          · rw [if_pos h5] at hrm
            exact absurd hrm (by simp)
          · rw [if_neg h5] at hrm
            cases hfe : ext2_find_entry st1.parent name with
            | error e =>
              simp only [hfe] at hrm
              exact absurd hrm (by simp)
            | ok pr2 =>
              obtain ⟨ci, ri⟩ := pr2
              simp only [hfe] at hrm
              cases hde : ext2_delete_entry st1.parent ci ri with
              | error e =>
                simp only [hde] at hrm
                exact absurd hrm (by simp)
              | ok parent3 =>
                simp only [hde, Except.ok.injEq] at hrm
                rw [← hrm, ← hst1, ← hchild]
                constructor
                · show st.freeBlocks - 1 - (if false = true then 1 else 0) + 1 =
                    st.freeBlocks
                  simp only [Bool.false_eq_true, if_false]
                  omega
                · show st.freeInodes - 1 + 1 = st.freeInodes
                  omega

/-- A parent directory with slack: `".."` still spans the rest of its
chunk, so the add-entry scan splits it instead of appending. -/
def c9Roomy : List Chunk := [[⟨2, 12, [46]⟩, ⟨2, 1012, [46, 46]⟩]]

/-- Initial state for the C9 witness. -/
def c9T0 : FsOpState := ⟨2, 1, c9Roomy, 3⟩

/-- State after the witness mkdir: one block and the inode consumed,
`".."` split to make room for the entry. -/
def c9T1 : FsOpState :=
  ⟨1, 0, [[⟨2, 12, [46]⟩, ⟨2, 12, [46, 46]⟩, ⟨15, 1000, [112]⟩]], 4⟩

/-- The directory created by the witness mkdir. -/
def c9TChild : ChildDir := ⟨15, [.chunks [ext2_make_empty 1024 15 2]], 1⟩

/-- State after the witness rmdir and eviction: counters (and even the
parent's bytes) are fully restored. -/
def c9T2 : FsOpState := ⟨2, 1, [[⟨2, 12, [46]⟩, ⟨2, 1012, [46, 46]⟩]], 3⟩

/-- Witness for the amended C9 theorem on the roomy parent. -/
theorem ext2_mkdir_rmdir_restores_counters_witness :
    ext2_mkdir 1024 c9T0 [112] 15 2 = .ok (c9T1, c9TChild, false) ∧
    ext2_rmdir_evict 1024 2048 c9T1 c9TChild [112] = .ok c9T2 ∧
    c9T2.freeBlocks = c9T0.freeBlocks ∧ c9T2.freeInodes = c9T0.freeInodes :=
  ⟨rfl, rfl,
   ext2_mkdir_rmdir_restores_counters 1024 2048 c9T0 c9T1 c9T2 c9TChild
     [112] 15 2 rfl rfl⟩

end Ext2Lite
